import Mathlib

/-!
Query parameter store of `ydb/core/kqp/gateway/kqp_query_data.cpp`.

A shallow embedding of `TTxAllocatorState` and `TQueryData`:
the parameter map (`UnboxedData`), the serialized cache (`Params`), the
transaction results (`TxResults`) and the internal-value cache, with every
method written as a function from the state before the call to the outcome
and the state after it.  A thrown `YQL_ENSURE` / `Y_ENSURE` is an
`Except.error`; the state component is what the object holds when the
exception leaves the method.

Arena binding (`BindAllocator`, `with_lock`) guards memory only and is not
part of this state; the guards each method takes are given separately, as the
sequence of acquire and release steps of the method (`...Binds`).
-/

namespace NKikimr.NKqp

/-! ## Values -/

/-- MiniKQL type descriptors (`NKikimr::NMiniKQL::TType*`): the data types the
unit builds itself, and `Other` for every descriptor it only passes along. -/
inductive TType where
  | Ui32
  | Ui64
  | Int32
  | Double
  | Uuid
  | Other (id : Nat)
  deriving DecidableEq, Repr

/-- Runtime values (`NUdf::TUnboxedValue`).  A double is kept as its 64-bit
pattern, a string as its bytes. -/
inductive TUnboxedValue where
  | Ui32 (v : Nat)
  | Ui64 (v : Nat)
  | Int32 (v : Int)
  | Double (bits : Nat)
  | String (bytes : List Nat)
  | Other (payload : Nat)
  deriving DecidableEq, Repr

/-- The pair `std::pair<TType*, TUnboxedValue>`. -/
abbrev TTypedUnboxedValue := TType × TUnboxedValue

/-- Exceptions leaving a method: `YQL_ENSURE` throws `TYqlPanic`, `Y_ENSURE`
throws `yexception`; each carries the message of the failed check. -/
inductive TError where
  | TYqlPanic (msg : String)
  | yexception (msg : String)
  deriving DecidableEq, Repr

/-- The value of `Max<ui32>()`. -/
def MaxUi32 : Nat := 4294967295

/-- The conversion `ui32(x)`. -/
def ui32 (x : Nat) : Nat := x % 2 ^ 32

/-- The conversion `ui64(x)`. -/
def ui64 (x : Nat) : Nat := x % 2 ^ 64

/-- The identifier `TGUID`: four 32-bit words `dw[0..3]`. -/
structure TGUID where
  dw0 : Nat
  dw1 : Nat
  dw2 : Nat
  dw3 : Nat
  deriving DecidableEq, Repr

/-- The eight bytes a 64-bit word occupies in memory, lowest byte first. -/
def bytesOfUi64 (x : Nat) : List Nat :=
  (List.range 8).map (fun i => x / 256 ^ i % 256)

/-! ## Binding descriptors (`NKqpProto::TKqpPhyParamBinding`) -/

/-- The tag `TKqpPhyInternalBinding::EType`: the seven kinds the switch of
`GetInternalBindingValue` names, and `Other` for any other tag value. -/
inductive EInternalBindingType where
  | PARAM_NOW
  | PARAM_CURRENT_DATE
  | PARAM_CURRENT_DATETIME
  | PARAM_CURRENT_TIMESTAMP
  | PARAM_RANDOM_NUMBER
  | PARAM_RANDOM
  | PARAM_RANDOM_UUID
  | Other (tag : Nat)
  deriving DecidableEq, Repr

/-- The case of the binding's `Type` oneof with its payload; `Other` is any
tag that is none of the three cases (an unset oneof included). -/
inductive TTypeCase where
  | kExternalBinding
  | kTxResultBinding (TxIndex ResultIndex : Nat)
  | kInternalBinding (InternalType : EInternalBindingType)
  | Other (tag : Nat)
  deriving DecidableEq, Repr

/-- A parameter binding: the declared name and the oneof case. -/
structure TKqpPhyParamBinding where
  Name : String
  TypeCase : TTypeCase
  deriving DecidableEq, Repr

/-! ## Internal-value cache (`TTxAllocatorState`) -/

/-- Modelled from the spec: the time and random providers, declared in the
header that is not part of the sources.  A record holds what each generator
would return if it were consulted at this moment, one reading per internal
kind; different calls may be given different records. -/
structure TProviders where
  Now : Nat
  Date : Nat
  Datetime : Nat
  Timestamp : Nat
  RandomNumber : Nat
  RandomDouble : Nat
  RandomUuid : TGUID
  deriving DecidableEq, Repr

/-- Modelled from the spec: the cache slots of `TTxAllocatorState`, declared in
the header that is not part of the sources: at most one cached value per
internal kind (now, date, datetime, timestamp, random integer, random double,
random identifier). -/
structure TTxAllocatorState where
  CachedNow : Option Nat
  CachedDate : Option Nat
  CachedDatetime : Option Nat
  CachedTimestamp : Option Nat
  CachedRandomNumber : Option Nat
  CachedRandomDouble : Option Nat
  CachedRandomUuid : Option TGUID
  deriving DecidableEq, Repr

namespace TTxAllocatorState

/-- The state the constructor leaves: no slot is populated. -/
def init : TTxAllocatorState :=
  { CachedNow := none, CachedDate := none, CachedDatetime := none, CachedTimestamp := none,
    CachedRandomNumber := none, CachedRandomDouble := none, CachedRandomUuid := none }

/-- Modelled from the spec: `GetCachedNow` of the missing header: the slot is
computed on first access (an unsigned 64-bit count) and held afterwards. -/
def GetCachedNow (st : TTxAllocatorState) (env : TProviders) : Nat × TTxAllocatorState :=
  match st.CachedNow with
  | some v => (v, st)
  | none => (ui64 env.Now, { st with CachedNow := some (ui64 env.Now) })

/-- Modelled from the spec: `GetCachedDate` of the missing header: the day
count is computed on first access and held afterwards. -/
def GetCachedDate (st : TTxAllocatorState) (env : TProviders) : Nat × TTxAllocatorState :=
  match st.CachedDate with
  | some v => (v, st)
  | none => (ui64 env.Date, { st with CachedDate := some (ui64 env.Date) })

/-- Modelled from the spec: `GetCachedDatetime` of the missing header: the
seconds count is computed on first access and held afterwards. -/
def GetCachedDatetime (st : TTxAllocatorState) (env : TProviders) : Nat × TTxAllocatorState :=
  match st.CachedDatetime with
  | some v => (v, st)
  | none => (ui64 env.Datetime, { st with CachedDatetime := some (ui64 env.Datetime) })

/-- Modelled from the spec: `GetCachedTimestamp` of the missing header: the
microsecond count is computed on first access and held afterwards. -/
def GetCachedTimestamp (st : TTxAllocatorState) (env : TProviders) : Nat × TTxAllocatorState :=
  match st.CachedTimestamp with
  | some v => (v, st)
  | none => (ui64 env.Timestamp, { st with CachedTimestamp := some (ui64 env.Timestamp) })

/-- Modelled from the spec: `GetCachedRandom<ui64>` of the missing header. -/
def GetCachedRandomUi64 (st : TTxAllocatorState) (env : TProviders) : Nat × TTxAllocatorState :=
  match st.CachedRandomNumber with
  | some v => (v, st)
  | none => (ui64 env.RandomNumber, { st with CachedRandomNumber := some (ui64 env.RandomNumber) })

/-- Modelled from the spec: `GetCachedRandom<double>` of the missing header;
the double is its 64-bit pattern. -/
def GetCachedRandomDouble (st : TTxAllocatorState) (env : TProviders) : Nat × TTxAllocatorState :=
  match st.CachedRandomDouble with
  | some v => (v, st)
  | none => (ui64 env.RandomDouble, { st with CachedRandomDouble := some (ui64 env.RandomDouble) })

/-- Modelled from the spec: `GetCachedRandom<TGUID>` of the missing header. -/
def GetCachedRandomGuid (st : TTxAllocatorState) (env : TProviders) : TGUID × TTxAllocatorState :=
  match st.CachedRandomUuid with
  | some v => (v, st)
  | none =>
    let g : TGUID :=
      { dw0 := ui32 env.RandomUuid.dw0, dw1 := ui32 env.RandomUuid.dw1,
        dw2 := ui32 env.RandomUuid.dw2, dw3 := ui32 env.RandomUuid.dw3 }
    (g, { st with CachedRandomUuid := some g })

/-- Modelled from the spec: `Reset` of the missing header: every slot of the
internal-value cache is emptied. -/
def Reset (_st : TTxAllocatorState) : TTxAllocatorState := init

/-- The method `TTxAllocatorState::GetInternalBindingValue`: the switch over the
internal kind.  The allocator state returned is the one after the cache
access, also when a check fails afterwards.  For `PARAM_RANDOM_UUID` the two
`ui64` loads from `uuid.dw` are those of a little-endian host, where the load
over two adjacent 32-bit words gives `dw[0] + 2^32 * dw[1]`. -/
def GetInternalBindingValue (st : TTxAllocatorState) (env : TProviders)
    (internalType : EInternalBindingType) : Except TError TTypedUnboxedValue × TTxAllocatorState :=
  match internalType with
  | .PARAM_NOW =>
    let r := st.GetCachedNow env
    (.ok (TType.Ui64, TUnboxedValue.Ui64 (ui64 r.1)), r.2)
  | .PARAM_CURRENT_DATE =>
    let r := st.GetCachedDate env
    let date := ui32 r.1
    if date ≤ MaxUi32 then (.ok (TType.Ui32, TUnboxedValue.Ui32 (ui32 date)), r.2)
    else (.error (.TYqlPanic "date <= Max<ui32>()"), r.2)
  | .PARAM_CURRENT_DATETIME =>
    let r := st.GetCachedDatetime env
    let datetime := ui64 r.1
    if datetime ≤ MaxUi32 then (.ok (TType.Ui32, TUnboxedValue.Ui32 (ui32 datetime)), r.2)
    else (.error (.TYqlPanic "datetime <= Max<ui32>()"), r.2)
  | .PARAM_CURRENT_TIMESTAMP =>
    let r := st.GetCachedTimestamp env
    (.ok (TType.Ui64, TUnboxedValue.Ui64 (ui64 r.1)), r.2)
  | .PARAM_RANDOM_NUMBER =>
    let r := st.GetCachedRandomUi64 env
    (.ok (TType.Ui64, TUnboxedValue.Ui64 (ui64 r.1)), r.2)
  | .PARAM_RANDOM =>
    let r := st.GetCachedRandomDouble env
    (.ok (TType.Double, TUnboxedValue.Double r.1), r.2)
  | .PARAM_RANDOM_UUID =>
    let r := st.GetCachedRandomGuid env
    let uuid := r.1
    let half0 := uuid.dw0 + 2 ^ 32 * uuid.dw1
    let half1 := uuid.dw2 + 2 ^ 32 * uuid.dw3
    (.ok (TType.Uuid, TUnboxedValue.String (bytesOfUi64 half0 ++ bytesOfUi64 half1)), r.2)
  | .Other tag =>
    (.error (.TYqlPanic ("Unexpected internal parameter type: " ++ toString tag)), st)

end TTxAllocatorState

/-! ## Maps keyed by parameter name -/

/-- A map from names to entries (`THashMap<TString, _>`), as an association
list; iteration order carries no meaning. -/
abbrev TNameMap (α : Type) := List (String × α)

namespace TNameMap

/-- The lookup `find(name)`: the entry stored under the name, if any. -/
def find {α : Type} : TNameMap α → String → Option α
  | [], _ => none
  | (k, v) :: rest, name => if k = name then some v else find rest name

/-- The insertion `emplace(name, v)`: inserts when the name is absent; the flag
tells whether the insertion took place. -/
def emplace {α : Type} (m : TNameMap α) (name : String) (v : α) : TNameMap α × Bool :=
  match find m name with
  | some _ => (m, false)
  | none => ((name, v) :: m, true)

end TNameMap

/-! ## Serialization bridge -/

/-- The conversions of `mkql_proto.h`, which this unit only calls: the wire
messages are payloads of a type the bridge chooses, and the conversions are
functions the bridge supplies. -/
structure TProtoBridge where
  MkqlType : Type
  MkqlValue : Type
  YdbType : Type
  YdbValue : Type
  ExportTypeToProto : TType → MkqlType
  ExportValueToProto : TType → TUnboxedValue → MkqlValue
  ImportMkqlValueFromProto : MkqlType → MkqlValue → TTypedUnboxedValue
  ImportYdbValueFromProto : YdbType → YdbValue → TTypedUnboxedValue

/-- The message `NKikimrMiniKQL::TParams`: a wire type and a wire value. -/
structure TParams (B : TProtoBridge) where
  Type_ : B.MkqlType
  Value : B.MkqlValue

/-- The wire form of a stored pair, as the body of `GetParameterMiniKqlValue`
builds it: `ExportTypeToProto` and `ExportValueToProto` into one `TParams`. -/
def exportParam (B : TProtoBridge) (tv : TTypedUnboxedValue) : TParams B :=
  { Type_ := B.ExportTypeToProto tv.1, Value := B.ExportValueToProto tv.1 tv.2 }

/-! ## The query-data object -/

/-- The fields of `TQueryData`. -/
structure TQueryData (B : TProtoBridge) where
  UnboxedData : TNameMap TTypedUnboxedValue
  Params : TNameMap (TParams B)
  TxResults : List (List TTypedUnboxedValue)
  AllocState : TTxAllocatorState

/-- The outcome of a method and the object after it. -/
abbrev TOutcome (B : TProtoBridge) (α : Type) := Except TError α × TQueryData B

namespace TQueryData

variable {B : TProtoBridge}

/-- The constructor `TQueryData(allocatorState)`: all containers empty. -/
def init (B : TProtoBridge) (allocatorState : TTxAllocatorState) : TQueryData B :=
  { UnboxedData := [], Params := [], TxResults := [], AllocState := allocatorState }

/-- The method `GetParameterType`: `none` is the null pointer. -/
def GetParameterType (s : TQueryData B) (name : String) : Option TType × TQueryData B :=
  match s.UnboxedData.find name with
  | none => (none, s)
  | some it => (some it.1, s)

/-- The method `AddUVParam`: `emplace` into `UnboxedData`, returning its flag. -/
def AddUVParam (s : TQueryData B) (name : String) (type : TType) (value : TUnboxedValue) :
    Bool × TQueryData B :=
  let r := s.UnboxedData.emplace name (type, value)
  (r.2, { s with UnboxedData := r.1 })

/-- The method `AddTypedValueParam`: import from the Ydb wire pair, then `AddUVParam`. -/
def AddTypedValueParam (s : TQueryData B) (name : String) (ptype : B.YdbType)
    (pvalue : B.YdbValue) : Bool × TQueryData B :=
  let r := B.ImportYdbValueFromProto ptype pvalue
  s.AddUVParam name r.1 r.2

/-- The method `AddMkqlParam`: import from the MiniKQL wire pair, then `AddUVParam`. -/
def AddMkqlParam (s : TQueryData B) (name : String) (t : B.MkqlType) (v : B.MkqlValue) :
    Bool × TQueryData B :=
  let r := B.ImportMkqlValueFromProto t v
  s.AddUVParam name r.1 r.2

/-- The method `TQueryData::GetInternalBindingValue`: delegates to the allocator state. -/
def GetInternalBindingValue (s : TQueryData B) (env : TProviders)
    (internalType : EInternalBindingType) : TOutcome B TTypedUnboxedValue :=
  let r := s.AllocState.GetInternalBindingValue env internalType
  (r.1, { s with AllocState := r.2 })

/-- The method `GetParameterUnboxedValue`: the stored pair, or the failed
`YQL_ENSURE` when the name is not in `UnboxedData`. -/
def GetParameterUnboxedValue (s : TQueryData B) (name : String) : TOutcome B TTypedUnboxedValue :=
  match s.UnboxedData.find name with
  | none => (.error (.TYqlPanic ("Param " ++ name ++ " not found")), s)
  | some it => (.ok it, s)

/-- The method `GetParameterMiniKqlValue`: `none` is the null pointer, `some p`
the entry of `Params` the returned pointer refers to. -/
def GetParameterMiniKqlValue (s : TQueryData B) (name : String) : TOutcome B (Option (TParams B)) :=
  match s.UnboxedData.find name with
  | none => (.ok none, s)
  | some _ =>
    match s.Params.find name with
    | some p => (.ok (some p), s)
    | none =>
      match s.GetParameterUnboxedValue name with
      | (.error e, s1) => (.error e, s1)
      | (.ok tv, s1) =>
        let param := exportParam B tv
        let r := s1.Params.emplace name param
        let s2 : TQueryData B := { s1 with Params := r.1 }
        if r.2 then (.ok (some param), s2) else (.error (.TYqlPanic "success"), s2)

/-- The loop of `GetParams` over the names of `UnboxedData`; an exception ends it. -/
def GetParamsLoop (s : TQueryData B) : List String → Except TError Unit × TQueryData B
  | [] => (.ok (), s)
  | name :: rest =>
    match s.GetParameterMiniKqlValue name with
    | (.error e, s1) => (.error e, s1)
    | (.ok _, s1) => GetParamsLoop s1 rest

/-- The method `GetParams`: serializes every stored name, then returns `Params`. -/
def GetParams (s : TQueryData B) : TOutcome B (TNameMap (TParams B)) :=
  match s.GetParamsLoop (s.UnboxedData.map Prod.fst) with
  | (.error e, s1) => (.error e, s1)
  | (.ok _, s1) => (.ok s1.Params, s1)

/-- Modelled from the spec: `HasResult` of the missing header: whether the
transaction-result set has an entry at (txIndex, resultIndex). -/
def HasResult (s : TQueryData B) (txIndex resultIndex : Nat) : Bool :=
  match s.TxResults.get? txIndex with
  | none => false
  | some results => decide (resultIndex < results.length)

/-- Modelled from the spec: `GetTxResult` of the missing header: the typed
value at (txIndex, resultIndex) of the transaction-result set. -/
def GetTxResult (s : TQueryData B) (txIndex resultIndex : Nat) : Option TTypedUnboxedValue :=
  match s.TxResults.get? txIndex with
  | none => none
  | some results => results.get? resultIndex

/-- The method `MaterializeParamValue`. -/
def MaterializeParamValue (s : TQueryData B) (env : TProviders) (ensure : Bool)
    (paramBinding : TKqpPhyParamBinding) : TOutcome B Bool :=
  match paramBinding.TypeCase with
  | .kExternalBinding =>
    let r := s.GetParameterType paramBinding.Name
    match r.1 with
    | some _ => (.ok true, r.2)
    | none =>
      if !ensure || r.1.isSome then (.ok false, r.2)
      else (.error (.yexception ("Parameter not found: " ++ paramBinding.Name)), r.2)
  | .kTxResultBinding txIndex resultIndex =>
    if s.HasResult txIndex resultIndex then
      match s.GetTxResult txIndex resultIndex with
      | some tv => (.ok true, (s.AddUVParam paramBinding.Name tv.1 tv.2).2)
      | none => (.error (.TYqlPanic "GetTxResult: no such result"), s)
    else if ensure then
      if s.HasResult txIndex resultIndex then (.ok false, s)
      else (.error (.TYqlPanic "HasResult(txIndex, resultIndex)"), s)
    else (.ok false, s)
  | .kInternalBinding internalType =>
    match s.GetInternalBindingValue env internalType with
    | (.error e, s1) => (.error e, s1)
    | (.ok tv, s1) => (.ok true, (s1.AddUVParam paramBinding.Name tv.1 tv.2).2)
  | .Other tag =>
    (.error (.TYqlPanic ("Unexpected parameter binding type: " ++ toString tag)), s)

/-- The method `Clear`. -/
def Clear (s : TQueryData B) : TQueryData B :=
  { UnboxedData := [], Params := [], TxResults := [], AllocState := s.AllocState.Reset }

/-- Modelled from the spec: the execution engine recording the results of one
more sub-transaction (`AddTxResults` of the missing header): the
transaction-result set grows by one result sequence. -/
def AddTxResults (s : TQueryData B) (results : List TTypedUnboxedValue) : TQueryData B :=
  { s with TxResults := s.TxResults ++ [results] }

end TQueryData

/-! ## Sequences of calls -/

/-- One call on the object by its user. -/
inductive TCall (B : TProtoBridge) where
  | AddUVParam (name : String) (type : TType) (value : TUnboxedValue)
  | AddTypedValueParam (name : String) (ptype : B.YdbType) (pvalue : B.YdbValue)
  | AddMkqlParam (name : String) (t : B.MkqlType) (v : B.MkqlValue)
  | GetParameterType (name : String)
  | GetParameterUnboxedValue (name : String)
  | GetParameterMiniKqlValue (name : String)
  | GetParams
  | MaterializeParamValue (env : TProviders) (ensure : Bool) (paramBinding : TKqpPhyParamBinding)
  | Clear
  | AddTxResults (results : List TTypedUnboxedValue)

/-- The object after one call (after the exception, when the call throws). -/
def TCall.apply {B : TProtoBridge} (s : TQueryData B) : TCall B → TQueryData B
  | .AddUVParam name type value => (s.AddUVParam name type value).2
  | .AddTypedValueParam name ptype pvalue => (s.AddTypedValueParam name ptype pvalue).2
  | .AddMkqlParam name t v => (s.AddMkqlParam name t v).2
  | .GetParameterType name => (s.GetParameterType name).2
  | .GetParameterUnboxedValue name => (s.GetParameterUnboxedValue name).2
  | .GetParameterMiniKqlValue name => (s.GetParameterMiniKqlValue name).2
  | .GetParams => s.GetParams.2
  | .MaterializeParamValue env ensure paramBinding =>
    (s.MaterializeParamValue env ensure paramBinding).2
  | .Clear => s.Clear
  | .AddTxResults results => s.AddTxResults results

/-- The object after a sequence of calls, first call first. -/
def runCalls {B : TProtoBridge} (s : TQueryData B) : List (TCall B) → TQueryData B
  | [] => s
  | c :: rest => runCalls (c.apply s) rest

/-- Invariant I1: every entry of the serialized cache has an entry of the same
name in the parameter map and is the export of that entry. -/
def I1 {B : TProtoBridge} (s : TQueryData B) : Prop :=
  ∀ name p, s.Params.find name = some p →
    ∃ tv, s.UnboxedData.find name = some tv ∧ p = exportParam B tv

/-- The states an object can be in: those a sequence of calls produces from a
newly constructed object. -/
def Reachable {B : TProtoBridge} (s : TQueryData B) : Prop :=
  ∃ (allocatorState : TTxAllocatorState) (calls : List (TCall B)),
    s = runCalls (TQueryData.init B allocatorState) calls

/-- The seven internal kinds the switch of `GetInternalBindingValue` handles. -/
def EInternalBindingType.IsSupported : EInternalBindingType → Bool
  | .Other _ => false
  | _ => true

/-- The clock value a date kind would use, cached or read now, is within the
32-bit range; no condition for the other kinds. -/
def ClockWithin32 (st : TTxAllocatorState) (env : TProviders) : EInternalBindingType → Prop
  | .PARAM_CURRENT_DATE => (st.GetCachedDate env).1 ≤ MaxUi32
  | .PARAM_CURRENT_DATETIME => (st.GetCachedDatetime env).1 ≤ MaxUi32
  | _ => True

/-- The bridge's import inverts its export on MiniKQL wire pairs. -/
def ImportInvertsExport (B : TProtoBridge) : Prop :=
  ∀ (type : TType) (value : TUnboxedValue),
    B.ImportMkqlValueFromProto (B.ExportTypeToProto type) (B.ExportValueToProto type value)
      = (type, value)

/-- A bridge whose wire messages are the typed values themselves; its import
inverts its export. -/
def idBridge : TProtoBridge :=
  { MkqlType := TType, MkqlValue := TUnboxedValue, YdbType := TType, YdbValue := TUnboxedValue,
    ExportTypeToProto := fun t => t, ExportValueToProto := fun _ v => v,
    ImportMkqlValueFromProto := fun t v => (t, v), ImportYdbValueFromProto := fun t v => (t, v) }

/-! ## Further notions used by the statements -/

/-- Whether the call is `Clear`. -/
def TCall.IsClear {B : TProtoBridge} : TCall B → Bool
  | .Clear => true
  | _ => false

/-- Every slot populated in `st` holds the same value in `st2`. -/
def CacheKept (st st2 : TTxAllocatorState) : Prop :=
  (∀ v, st.CachedNow = some v → st2.CachedNow = some v) ∧
  (∀ v, st.CachedDate = some v → st2.CachedDate = some v) ∧
  (∀ v, st.CachedDatetime = some v → st2.CachedDatetime = some v) ∧
  (∀ v, st.CachedTimestamp = some v → st2.CachedTimestamp = some v) ∧
  (∀ v, st.CachedRandomNumber = some v → st2.CachedRandomNumber = some v) ∧
  (∀ v, st.CachedRandomDouble = some v → st2.CachedRandomDouble = some v) ∧
  (∀ v, st.CachedRandomUuid = some v → st2.CachedRandomUuid = some v)

/-- The four bytes a 32-bit word occupies in memory, lowest byte first. -/
def bytesOfUi32 (x : Nat) : List Nat :=
  (List.range 4).map (fun i => x / 256 ^ i % 256)

/-- The four words of the identifier are 32-bit words. -/
def TGUID.IsValid (g : TGUID) : Prop :=
  g.dw0 < 2 ^ 32 ∧ g.dw1 < 2 ^ 32 ∧ g.dw2 < 2 ^ 32 ∧ g.dw3 < 2 ^ 32

/-- The binding is malformed: its oneof case is none of the three, or it is an
internal binding whose kind is none of the seven. -/
def TKqpPhyParamBinding.IsMalformed (paramBinding : TKqpPhyParamBinding) : Bool :=
  match paramBinding.TypeCase with
  | .Other _ => true
  | .kInternalBinding (.Other _) => true
  | _ => false

/-! ## Arena binds

The guards each method takes, in the order they are taken and dropped:
`BindAllocator()` and `with_lock(AllocState->Alloc)` acquire the arena, the end
of the guard's scope (by return or by exception) releases it. -/

/-- One step of a guard on the arena. -/
inductive TBindEvent where
  | Acquire
  | Release
  deriving DecidableEq, Repr

/-- The bind depth after a sequence of guard steps, starting from depth `d`. -/
def bindDepth : Nat → List TBindEvent → Nat
  | d, [] => d
  | d, .Acquire :: rest => bindDepth (d + 1) rest
  | d, .Release :: rest => bindDepth (d - 1) rest

/-- The highest bind depth reached during a sequence of guard steps, starting
from depth `d`. -/
def maxBindDepth : Nat → List TBindEvent → Nat
  | d, [] => d
  | d, .Acquire :: rest => max d (maxBindDepth (d + 1) rest)
  | d, .Release :: rest => max d (maxBindDepth (d - 1) rest)

namespace TQueryData

variable {B : TProtoBridge}

/-- The guards of `AddUVParam`: `g` from entry to return. -/
def AddUVParamBinds : List TBindEvent := [.Acquire, .Release]

/-- The guards of `AddTypedValueParam`: `guard` from entry to return, and within
its scope the call of `AddUVParam`. -/
def AddTypedValueParamBinds : List TBindEvent := [.Acquire] ++ AddUVParamBinds ++ [.Release]

/-- The guards of `AddMkqlParam`: `guard` from entry to return, and within its
scope the call of `AddUVParam`. -/
def AddMkqlParamBinds : List TBindEvent := [.Acquire] ++ AddUVParamBinds ++ [.Release]

/-- The guards of `GetParameterMiniKqlValue`: the `with_lock` block, entered only
when the name is stored and not yet serialized. -/
def GetParameterMiniKqlValueBinds (s : TQueryData B) (name : String) : List TBindEvent :=
  match s.UnboxedData.find name with
  | none => []
  | some _ =>
    match s.Params.find name with
    | some _ => []
    | none => [.Acquire, .Release]

/-- The guards of the loop of `GetParams`: those of each call of
`GetParameterMiniKqlValue`, until the names end or a call throws. -/
def GetParamsLoopBinds (s : TQueryData B) : List String → List TBindEvent
  | [] => []
  | name :: rest =>
    s.GetParameterMiniKqlValueBinds name ++
      match s.GetParameterMiniKqlValue name with
      | (.error _, _) => []
      | (.ok _, s1) => GetParamsLoopBinds s1 rest

/-- The guards of `GetParams`. -/
def GetParamsBinds (s : TQueryData B) : List TBindEvent :=
  s.GetParamsLoopBinds (s.UnboxedData.map Prod.fst)

/-- The guards of `MaterializeParamValue`: none in the external case and when the
result is missing; `guard` around `GetTxResult` and `AddUVParam` when the result
exists; `guard` around `GetInternalBindingValue` and, unless that throws,
`AddUVParam` in the internal case. -/
def MaterializeParamValueBinds (s : TQueryData B) (env : TProviders)
    (paramBinding : TKqpPhyParamBinding) : List TBindEvent :=
  match paramBinding.TypeCase with
  | .kExternalBinding => []
  | .kTxResultBinding txIndex resultIndex =>
    if s.HasResult txIndex resultIndex then
      match s.GetTxResult txIndex resultIndex with
      | some _ => [.Acquire] ++ AddUVParamBinds ++ [.Release]
      | none => [.Acquire, .Release]
    else []
  | .kInternalBinding internalType =>
    match s.GetInternalBindingValue env internalType with
    | (.error _, _) => [.Acquire, .Release]
    | (.ok _, _) => [.Acquire] ++ AddUVParamBinds ++ [.Release]
  | .Other _ => []

/-- The guards of `Clear`: `g` around the whole body. -/
def ClearBinds : List TBindEvent := [.Acquire, .Release]

end TQueryData

/-! ## Facts about name maps -/

namespace TNameMap

theorem find_cons_same {α : Type} (m : TNameMap α) (name : String) (v : α) :
    find ((name, v) :: m) name = some v := by
  simp [find]

theorem find_cons_other {α : Type} (m : TNameMap α) (name other : String) (v : α)
    (h : other ≠ name) : find ((name, v) :: m) other = find m other := by
  have h2 : ¬ name = other := fun e => h e.symm
  simp [find, h2]

theorem emplace_absent {α : Type} (m : TNameMap α) (name : String) (v : α)
    (h : find m name = none) : emplace m name v = ((name, v) :: m, true) := by
  simp [emplace, h]

theorem emplace_present {α : Type} (m : TNameMap α) (name : String) (v w : α)
    (h : find m name = some w) : emplace m name v = (m, false) := by
  simp [emplace, h]

theorem find_emplace_same {α : Type} (m : TNameMap α) (name : String) (v : α)
    (h : find m name = none) : find (emplace m name v).1 name = some v := by
  rw [emplace_absent m name v h]
  exact find_cons_same m name v

theorem find_emplace_other {α : Type} (m : TNameMap α) (name other : String) (v : α)
    (h : other ≠ name) : find (emplace m name v).1 other = find m other := by
  cases hf : find m name with
  | none => rw [emplace_absent m name v hf]; exact find_cons_other m name other v h
  | some w => rw [emplace_present m name v w hf]

theorem find_emplace_keeps {α : Type} (m : TNameMap α) (name other : String) (v w : α)
    (h : find m other = some w) : find (emplace m name v).1 other = some w := by
  by_cases e : other = name
  · subst e
    rw [emplace_present m other v w h]
    exact h
  · rw [find_emplace_other m name other v e]
    exact h

theorem find_emplace_isSome {α : Type} (m : TNameMap α) (name : String) (v : α) :
    ∃ w, find (emplace m name v).1 name = some w := by
  cases hf : find m name with
  | none => exact ⟨v, find_emplace_same m name v hf⟩
  | some w => exact ⟨w, find_emplace_keeps m name name v w hf⟩

theorem find_eq_none_of_not_mem {α : Type} (m : TNameMap α) (name : String)
    (h : name ∉ m.map Prod.fst) : find m name = none := by
  induction m with
  | nil => rfl
  | cons kv rest ih =>
    obtain ⟨k, v⟩ := kv
    simp only [List.map_cons, List.mem_cons, not_or] at h
    have hk : ¬ k = name := fun e => h.1 e.symm
    simp only [find, hk, if_false]
    exact ih h.2

theorem mem_keys_of_find {α : Type} (m : TNameMap α) (name : String) (v : α)
    (h : find m name = some v) : name ∈ m.map Prod.fst := by
  by_contra hn
  rw [find_eq_none_of_not_mem m name hn] at h
  exact Option.noConfusion h

end TNameMap

namespace TQueryData

variable {B : TProtoBridge}

/-! ## Facts about `AddUVParam` -/

theorem AddUVParam_absent (s : TQueryData B) (name : String) (type : TType)
    (value : TUnboxedValue) (h : s.UnboxedData.find name = none) :
    s.AddUVParam name type value
      = (true, { s with UnboxedData := (name, (type, value)) :: s.UnboxedData }) := by
  simp [AddUVParam, TNameMap.emplace_absent _ _ _ h]

theorem AddUVParam_present (s : TQueryData B) (name : String) (type : TType)
    (value : TUnboxedValue) (tv : TTypedUnboxedValue) (h : s.UnboxedData.find name = some tv) :
    s.AddUVParam name type value = (false, s) := by
  simp [AddUVParam, TNameMap.emplace_present _ _ _ tv h]

theorem AddUVParam_Params (s : TQueryData B) (name : String) (type : TType)
    (value : TUnboxedValue) : (s.AddUVParam name type value).2.Params = s.Params := rfl

theorem AddUVParam_TxResults (s : TQueryData B) (name : String) (type : TType)
    (value : TUnboxedValue) : (s.AddUVParam name type value).2.TxResults = s.TxResults := rfl

theorem AddUVParam_AllocState (s : TQueryData B) (name : String) (type : TType)
    (value : TUnboxedValue) : (s.AddUVParam name type value).2.AllocState = s.AllocState := rfl

theorem AddUVParam_keeps (s : TQueryData B) (name other : String) (type : TType)
    (value : TUnboxedValue) (tv : TTypedUnboxedValue)
    (h : s.UnboxedData.find other = some tv) :
    (s.AddUVParam name type value).2.UnboxedData.find other = some tv :=
  TNameMap.find_emplace_keeps s.UnboxedData name other (type, value) tv h

theorem AddUVParam_other (s : TQueryData B) (name other : String) (type : TType)
    (value : TUnboxedValue) (h : other ≠ name) :
    (s.AddUVParam name type value).2.UnboxedData.find other = s.UnboxedData.find other :=
  TNameMap.find_emplace_other s.UnboxedData name other (type, value) h

theorem AddUVParam_has (s : TQueryData B) (name : String) (type : TType)
    (value : TUnboxedValue) :
    ∃ tv, (s.AddUVParam name type value).2.UnboxedData.find name = some tv :=
  TNameMap.find_emplace_isSome s.UnboxedData name (type, value)

end TQueryData

namespace TQueryData

variable {B : TProtoBridge}

/-! ## Facts about `GetParameterMiniKqlValue` and `GetParams` -/

theorem GetParameterMiniKqlValue_absent (s : TQueryData B) (name : String)
    (h : s.UnboxedData.find name = none) :
    s.GetParameterMiniKqlValue name = (.ok none, s) := by
  simp [GetParameterMiniKqlValue, h]

theorem GetParameterMiniKqlValue_cached (s : TQueryData B) (name : String)
    (tv : TTypedUnboxedValue) (p : TParams B) (h : s.UnboxedData.find name = some tv)
    (hp : s.Params.find name = some p) :
    s.GetParameterMiniKqlValue name = (.ok (some p), s) := by
  simp [GetParameterMiniKqlValue, h, hp]

theorem GetParameterMiniKqlValue_fresh (s : TQueryData B) (name : String)
    (tv : TTypedUnboxedValue) (h : s.UnboxedData.find name = some tv)
    (hp : s.Params.find name = none) :
    s.GetParameterMiniKqlValue name
      = (.ok (some (exportParam B tv)),
          { s with Params := (name, exportParam B tv) :: s.Params }) := by
  simp [GetParameterMiniKqlValue, GetParameterUnboxedValue, h, hp,
    TNameMap.emplace_absent _ _ _ hp]

theorem GetParameterMiniKqlValue_UnboxedData (s : TQueryData B) (name : String) :
    (s.GetParameterMiniKqlValue name).2.UnboxedData = s.UnboxedData := by
  cases h : s.UnboxedData.find name with
  | none => rw [GetParameterMiniKqlValue_absent s name h]
  | some tv =>
    cases hp : s.Params.find name with
    | none => rw [GetParameterMiniKqlValue_fresh s name tv h hp]
    | some p => rw [GetParameterMiniKqlValue_cached s name tv p h hp]

theorem GetParameterMiniKqlValue_TxResults (s : TQueryData B) (name : String) :
    (s.GetParameterMiniKqlValue name).2.TxResults = s.TxResults := by
  cases h : s.UnboxedData.find name with
  | none => rw [GetParameterMiniKqlValue_absent s name h]
  | some tv =>
    cases hp : s.Params.find name with
    | none => rw [GetParameterMiniKqlValue_fresh s name tv h hp]
    | some p => rw [GetParameterMiniKqlValue_cached s name tv p h hp]

theorem GetParameterMiniKqlValue_AllocState (s : TQueryData B) (name : String) :
    (s.GetParameterMiniKqlValue name).2.AllocState = s.AllocState := by
  cases h : s.UnboxedData.find name with
  | none => rw [GetParameterMiniKqlValue_absent s name h]
  | some tv =>
    cases hp : s.Params.find name with
    | none => rw [GetParameterMiniKqlValue_fresh s name tv h hp]
    | some p => rw [GetParameterMiniKqlValue_cached s name tv p h hp]

theorem GetParameterMiniKqlValue_ok (s : TQueryData B) (name : String) :
    ∃ r, (s.GetParameterMiniKqlValue name).1 = .ok r := by
  cases h : s.UnboxedData.find name with
  | none => rw [GetParameterMiniKqlValue_absent s name h]; exact ⟨_, rfl⟩
  | some tv =>
    cases hp : s.Params.find name with
    | none => rw [GetParameterMiniKqlValue_fresh s name tv h hp]; exact ⟨_, rfl⟩
    | some p => rw [GetParameterMiniKqlValue_cached s name tv p h hp]; exact ⟨_, rfl⟩

theorem GetParameterMiniKqlValue_I1 (s : TQueryData B) (name : String) (h : I1 s) :
    I1 (s.GetParameterMiniKqlValue name).2 := by
  cases hu : s.UnboxedData.find name with
  | none => rw [GetParameterMiniKqlValue_absent s name hu]; exact h
  | some tv =>
    cases hp : s.Params.find name with
    | some p => rw [GetParameterMiniKqlValue_cached s name tv p hu hp]; exact h
    | none =>
      rw [GetParameterMiniKqlValue_fresh s name tv hu hp]
      intro n q hq
      by_cases e : n = name
      · subst e
        have hq2 : some (exportParam B tv) = some q := by
          simpa [TNameMap.find] using hq
        exact ⟨tv, hu, (Option.some.inj hq2).symm⟩
      · have hq2 : s.Params.find n = some q := by
          have := TNameMap.find_cons_other s.Params name n (exportParam B tv) e
          simpa [this] using hq
        exact h n q hq2

/-- What the serialized cache holds for a name after `GetParameterMiniKqlValue name`
ran on a state where I1 holds: the export of the stored pair, if there is one. -/
theorem GetParameterMiniKqlValue_Params_same (s : TQueryData B) (name : String) (h : I1 s) :
    (s.GetParameterMiniKqlValue name).2.Params.find name
      = (s.UnboxedData.find name).map (exportParam B) := by
  cases hu : s.UnboxedData.find name with
  | none =>
    rw [GetParameterMiniKqlValue_absent s name hu]
    cases hp : s.Params.find name with
    | none => rfl
    | some p =>
      obtain ⟨tv, htv, _⟩ := h name p hp
      rw [hu] at htv
      exact Option.noConfusion htv
  | some tv =>
    cases hp : s.Params.find name with
    | some p =>
      rw [GetParameterMiniKqlValue_cached s name tv p hu hp, hp]
      obtain ⟨tv2, htv, hpe⟩ := h name p hp
      rw [hu] at htv
      rw [hpe, ← Option.some.inj htv]
      rfl
    | none =>
      rw [GetParameterMiniKqlValue_fresh s name tv hu hp]
      simp [TNameMap.find]

theorem GetParameterMiniKqlValue_Params_keeps (s : TQueryData B) (name other : String)
    (p : TParams B) (hp : s.Params.find other = some p) :
    (s.GetParameterMiniKqlValue name).2.Params.find other = some p := by
  cases hu : s.UnboxedData.find name with
  | none => rw [GetParameterMiniKqlValue_absent s name hu]; exact hp
  | some tv =>
    cases hq : s.Params.find name with
    | some q => rw [GetParameterMiniKqlValue_cached s name tv q hu hq]; exact hp
    | none =>
      rw [GetParameterMiniKqlValue_fresh s name tv hu hq]
      have e : other ≠ name := by
        intro e
        rw [e, hq] at hp
        exact Option.noConfusion hp
      rw [show ({ s with Params := (name, exportParam B tv) :: s.Params } : TQueryData B).Params
        = (name, exportParam B tv) :: s.Params from rfl,
        TNameMap.find_cons_other s.Params name other (exportParam B tv) e]
      exact hp

/-- The loop of `GetParams` never throws, keeps the parameter map, the
transaction results, the allocator state and I1, keeps what the cache already
held and fills the cache for every name it visits. -/
theorem GetParamsLoop_spec (names : List String) :
    ∀ s : TQueryData B, I1 s →
      (s.GetParamsLoop names).1 = .ok () ∧
      (s.GetParamsLoop names).2.UnboxedData = s.UnboxedData ∧
      (s.GetParamsLoop names).2.TxResults = s.TxResults ∧
      (s.GetParamsLoop names).2.AllocState = s.AllocState ∧
      I1 (s.GetParamsLoop names).2 ∧
      (∀ n p, s.Params.find n = some p → (s.GetParamsLoop names).2.Params.find n = some p) ∧
      (∀ n, n ∈ names → (s.GetParamsLoop names).2.Params.find n
        = (s.UnboxedData.find n).map (exportParam B)) := by
  induction names with
  | nil =>
    intro s h
    exact ⟨rfl, rfl, rfl, rfl, h, fun _ _ hp => hp, fun n hn => absurd hn (List.not_mem_nil n)⟩
  | cons name rest ih =>
    intro s h
    obtain ⟨r, hr⟩ := GetParameterMiniKqlValue_ok s name
    have hstep : s.GetParamsLoop (name :: rest)
        = (s.GetParameterMiniKqlValue name).2.GetParamsLoop rest := by
      have hpair : s.GetParameterMiniKqlValue name
          = (.ok r, (s.GetParameterMiniKqlValue name).2) := by
        rw [← hr]
      simp only [GetParamsLoop]
      rw [hpair]
    have hI := GetParameterMiniKqlValue_I1 s name h
    have hU := GetParameterMiniKqlValue_UnboxedData s name
    obtain ⟨i1, i2, i3, i4, i5, i6, i7⟩ := ih (s.GetParameterMiniKqlValue name).2 hI
    rw [hstep]
    refine ⟨i1, i2.trans hU, i3.trans (GetParameterMiniKqlValue_TxResults s name),
      i4.trans (GetParameterMiniKqlValue_AllocState s name), i5, ?_, ?_⟩
    · intro n p hp
      exact i6 n p (GetParameterMiniKqlValue_Params_keeps s name n p hp)
    · intro n hn
      by_cases hrest : n ∈ rest
      · rw [i7 n hrest, hU]
      · have hn2 : n = name := by
          cases List.mem_cons.mp hn with
          | inl e => exact e
          | inr e => exact absurd e hrest
        subst hn2
        have hsame := GetParameterMiniKqlValue_Params_same s n h
        cases hu : s.UnboxedData.find n with
        | none =>
          rw [hu] at hsame
          cases hq : ((s.GetParameterMiniKqlValue n).2.GetParamsLoop rest).2.Params.find n with
          | none => rfl
          | some q =>
            obtain ⟨tv, htv, _⟩ := i5 n q hq
            rw [i2, hU, hu] at htv
            exact Option.noConfusion htv
        | some tv =>
          rw [hu] at hsame
          exact i6 n _ hsame

end TQueryData

namespace TQueryData

variable {B : TProtoBridge}

/-! ## Facts about `MaterializeParamValue` -/

theorem MaterializeParamValue_external_present (s : TQueryData B) (env : TProviders)
    (ensure : Bool) (name : String) (tv : TTypedUnboxedValue)
    (h : s.UnboxedData.find name = some tv) :
    s.MaterializeParamValue env ensure { Name := name, TypeCase := .kExternalBinding }
      = (.ok true, s) := by
  simp [MaterializeParamValue, GetParameterType, h]

theorem MaterializeParamValue_external_absent (s : TQueryData B) (env : TProviders)
    (ensure : Bool) (name : String) (h : s.UnboxedData.find name = none) :
    s.MaterializeParamValue env ensure { Name := name, TypeCase := .kExternalBinding }
      = (if ensure then .error (.yexception ("Parameter not found: " ++ name)) else .ok false,
          s) := by
  cases ensure <;> simp [MaterializeParamValue, GetParameterType, h]

theorem MaterializeParamValue_txResult_absent (s : TQueryData B) (env : TProviders)
    (ensure : Bool) (name : String) (txIndex resultIndex : Nat)
    (h : s.HasResult txIndex resultIndex = false) :
    s.MaterializeParamValue env ensure
        { Name := name, TypeCase := .kTxResultBinding txIndex resultIndex }
      = (if ensure then .error (.TYqlPanic "HasResult(txIndex, resultIndex)") else .ok false,
          s) := by
  cases ensure <;> simp [MaterializeParamValue, h]

theorem HasResult_iff_GetTxResult (s : TQueryData B) (txIndex resultIndex : Nat) :
    s.HasResult txIndex resultIndex = true ↔ ∃ tv, s.GetTxResult txIndex resultIndex = some tv := by
  unfold HasResult GetTxResult
  cases h : s.TxResults.get? txIndex with
  | none => simp
  | some results =>
    simp only [decide_eq_true_eq]
    constructor
    · intro hlt
      exact ⟨results.get ⟨resultIndex, hlt⟩, List.get?_eq_get hlt⟩
    · rintro ⟨tv, htv⟩
      by_contra hge
      rw [List.get?_eq_none.mpr (Nat.le_of_not_lt hge)] at htv
      exact Option.noConfusion htv

theorem MaterializeParamValue_txResult_present (s : TQueryData B) (env : TProviders)
    (ensure : Bool) (name : String) (txIndex resultIndex : Nat) (tv : TTypedUnboxedValue)
    (h : s.GetTxResult txIndex resultIndex = some tv) :
    s.MaterializeParamValue env ensure
        { Name := name, TypeCase := .kTxResultBinding txIndex resultIndex }
      = (.ok true, (s.AddUVParam name tv.1 tv.2).2) := by
  have hh : s.HasResult txIndex resultIndex = true :=
    (HasResult_iff_GetTxResult s txIndex resultIndex).mpr ⟨tv, h⟩
  simp [MaterializeParamValue, hh, h]

theorem MaterializeParamValue_internal_ok (s : TQueryData B) (env : TProviders)
    (ensure : Bool) (name : String) (internalType : EInternalBindingType)
    (tv : TTypedUnboxedValue)
    (h : (s.AllocState.GetInternalBindingValue env internalType).1 = .ok tv) :
    s.MaterializeParamValue env ensure { Name := name, TypeCase := .kInternalBinding internalType }
      = (.ok true,
          (({ s with AllocState := (s.AllocState.GetInternalBindingValue env internalType).2 }
            : TQueryData B).AddUVParam name tv.1 tv.2).2) := by
  simp [MaterializeParamValue, GetInternalBindingValue, h]

theorem MaterializeParamValue_internal_error (s : TQueryData B) (env : TProviders)
    (ensure : Bool) (name : String) (internalType : EInternalBindingType) (e : TError)
    (h : (s.AllocState.GetInternalBindingValue env internalType).1 = .error e) :
    s.MaterializeParamValue env ensure { Name := name, TypeCase := .kInternalBinding internalType }
      = (.error e,
          { s with AllocState := (s.AllocState.GetInternalBindingValue env internalType).2 }) := by
  simp [MaterializeParamValue, GetInternalBindingValue, h]

theorem MaterializeParamValue_other (s : TQueryData B) (env : TProviders)
    (ensure : Bool) (name : String) (tag : Nat) :
    s.MaterializeParamValue env ensure { Name := name, TypeCase := .Other tag }
      = (.error (.TYqlPanic ("Unexpected parameter binding type: " ++ toString tag)), s) := rfl

/-- Whatever the binding and the outcome, `MaterializeParamValue` leaves the
serialized cache and the transaction results alone and keeps every pair the
parameter map already held. -/
theorem MaterializeParamValue_frame (s : TQueryData B) (env : TProviders) (ensure : Bool)
    (paramBinding : TKqpPhyParamBinding) :
    (s.MaterializeParamValue env ensure paramBinding).2.Params = s.Params ∧
    (s.MaterializeParamValue env ensure paramBinding).2.TxResults = s.TxResults ∧
    (∀ n tv, s.UnboxedData.find n = some tv →
      (s.MaterializeParamValue env ensure paramBinding).2.UnboxedData.find n = some tv) := by
  obtain ⟨name, tc⟩ := paramBinding
  cases tc with
  | kExternalBinding =>
    cases h : s.UnboxedData.find name with
    | none =>
      rw [MaterializeParamValue_external_absent s env ensure name h]
      exact ⟨rfl, rfl, fun _ _ hn => hn⟩
    | some tv =>
      rw [MaterializeParamValue_external_present s env ensure name tv h]
      exact ⟨rfl, rfl, fun _ _ hn => hn⟩
  | kTxResultBinding txIndex resultIndex =>
    cases h : s.GetTxResult txIndex resultIndex with
    | none =>
      have hh : s.HasResult txIndex resultIndex = false := by
        cases hb : s.HasResult txIndex resultIndex with
        | false => rfl
        | true =>
          obtain ⟨tv, htv⟩ := (HasResult_iff_GetTxResult s txIndex resultIndex).mp hb
          rw [h] at htv
          exact Option.noConfusion htv
      rw [MaterializeParamValue_txResult_absent s env ensure name txIndex resultIndex hh]
      exact ⟨rfl, rfl, fun _ _ hn => hn⟩
    | some tv =>
      rw [MaterializeParamValue_txResult_present s env ensure name txIndex resultIndex tv h]
      exact ⟨rfl, rfl, fun n w hn => AddUVParam_keeps s name n tv.1 tv.2 w hn⟩
  | kInternalBinding internalType =>
    cases h : (s.AllocState.GetInternalBindingValue env internalType).1 with
    | error e =>
      rw [MaterializeParamValue_internal_error s env ensure name internalType e h]
      exact ⟨rfl, rfl, fun _ _ hn => hn⟩
    | ok tv =>
      rw [MaterializeParamValue_internal_ok s env ensure name internalType tv h]
      exact ⟨rfl, rfl, fun n w hn => AddUVParam_keeps _ name n tv.1 tv.2 w hn⟩
  | Other tag =>
    rw [MaterializeParamValue_other s env ensure name tag]
    exact ⟨rfl, rfl, fun _ _ hn => hn⟩

/-! ## Invariant I1 along calls -/

theorem I1_of_keeps (s t : TQueryData B) (hP : t.Params = s.Params)
    (hU : ∀ n tv, s.UnboxedData.find n = some tv → t.UnboxedData.find n = some tv)
    (h : I1 s) : I1 t := by
  intro n p hp
  rw [hP] at hp
  obtain ⟨tv, htv, hpe⟩ := h n p hp
  exact ⟨tv, hU n tv htv, hpe⟩

theorem I1_init (allocatorState : TTxAllocatorState) : I1 (init B allocatorState) := by
  intro n p hp
  exact Option.noConfusion hp

theorem I1_AddUVParam (s : TQueryData B) (name : String) (type : TType) (value : TUnboxedValue)
    (h : I1 s) : I1 (s.AddUVParam name type value).2 :=
  I1_of_keeps s _ rfl (fun n tv hn => AddUVParam_keeps s name n type value tv hn) h

theorem I1_GetParams (s : TQueryData B) (h : I1 s) : I1 s.GetParams.2 := by
  obtain ⟨h1, _, _, _, h5, _, _⟩ := GetParamsLoop_spec (s.UnboxedData.map Prod.fst) s h
  have hpair : s.GetParamsLoop (s.UnboxedData.map Prod.fst)
      = (.ok (), (s.GetParamsLoop (s.UnboxedData.map Prod.fst)).2) := by
    rw [← h1]
  have hg : s.GetParams.2 = (s.GetParamsLoop (s.UnboxedData.map Prod.fst)).2 := by
    simp only [GetParams]
    rw [hpair]
  rw [hg]
  exact h5

theorem I1_apply (s : TQueryData B) (c : TCall B) (h : I1 s) : I1 (c.apply s) := by
  cases c with
  | AddUVParam name type value => exact I1_AddUVParam s name type value h
  | AddTypedValueParam name ptype pvalue => exact I1_AddUVParam s name _ _ h
  | AddMkqlParam name t v => exact I1_AddUVParam s name _ _ h
  | GetParameterType name =>
    have e : (s.GetParameterType name).2 = s := by
      unfold GetParameterType
      cases s.UnboxedData.find name <;> rfl
    simpa [TCall.apply, e] using h
  | GetParameterUnboxedValue name =>
    have e : (s.GetParameterUnboxedValue name).2 = s := by
      unfold GetParameterUnboxedValue
      cases s.UnboxedData.find name <;> rfl
    simpa [TCall.apply, e] using h
  | GetParameterMiniKqlValue name => exact GetParameterMiniKqlValue_I1 s name h
  | GetParams => exact I1_GetParams s h
  | MaterializeParamValue env ensure paramBinding =>
    obtain ⟨f1, _, f3⟩ := MaterializeParamValue_frame s env ensure paramBinding
    exact I1_of_keeps s _ f1 f3 h
  | Clear =>
    intro n p hp
    exact Option.noConfusion hp
  | AddTxResults results => exact I1_of_keeps s _ rfl (fun _ _ hn => hn) h

theorem I1_runCalls (calls : List (TCall B)) : ∀ s : TQueryData B, I1 s → I1 (runCalls s calls) := by
  induction calls with
  | nil => intro s h; exact h
  | cons c rest ih => intro s h; exact ih (c.apply s) (I1_apply s c h)

end TQueryData

/-! ## Facts about the internal-value cache -/

theorem ui32_le_MaxUi32 (x : Nat) : ui32 x ≤ MaxUi32 := by
  unfold ui32 MaxUi32
  omega

theorem ui64_lt (x : Nat) : ui64 x < 2 ^ 64 := by
  unfold ui64
  exact Nat.mod_lt x (by norm_num)

theorem ui64_le_self (x : Nat) : ui64 x ≤ x := by
  unfold ui64
  exact Nat.mod_le x _

theorem TTxAllocatorState.GetInternalBindingValue_ok (st : TTxAllocatorState) (env : TProviders)
    (kind : EInternalBindingType) (hk : kind.IsSupported = true)
    (hc : ClockWithin32 st env kind) :
    ∃ tv, (st.GetInternalBindingValue env kind).1 = .ok tv := by
  cases kind with
  | PARAM_NOW => exact ⟨_, rfl⟩
  | PARAM_CURRENT_DATE =>
    refine ⟨(TType.Ui32, TUnboxedValue.Ui32 (ui32 (ui32 (st.GetCachedDate env).1))), ?_⟩
    simp [TTxAllocatorState.GetInternalBindingValue, ui32_le_MaxUi32]
  | PARAM_CURRENT_DATETIME =>
    refine ⟨(TType.Ui32, TUnboxedValue.Ui32 (ui32 (ui64 (st.GetCachedDatetime env).1))), ?_⟩
    have hle : ui64 (st.GetCachedDatetime env).1 ≤ MaxUi32 :=
      Nat.le_trans (ui64_le_self _) hc
    simp [TTxAllocatorState.GetInternalBindingValue, hle]
  | PARAM_CURRENT_TIMESTAMP => exact ⟨_, rfl⟩
  | PARAM_RANDOM_NUMBER => exact ⟨_, rfl⟩
  | PARAM_RANDOM => exact ⟨_, rfl⟩
  | PARAM_RANDOM_UUID => exact ⟨_, rfl⟩
  | Other tag => exact absurd hk (by simp [EInternalBindingType.IsSupported])

theorem TNameMap.find_of_mem_keys {α : Type} (m : TNameMap α) (name : String)
    (h : name ∈ m.map Prod.fst) : ∃ v, TNameMap.find m name = some v := by
  cases hf : TNameMap.find m name with
  | some v => exact ⟨v, rfl⟩
  | none =>
    exfalso
    induction m with
    | nil => simp at h
    | cons kv rest ih =>
      obtain ⟨k, v⟩ := kv
      by_cases e : k = name
      · simp [TNameMap.find, e] at hf
      · simp only [TNameMap.find, e, if_false] at hf
        simp only [List.map_cons, List.mem_cons] at h
        cases h with
        | inl h1 => exact e h1.symm
        | inr h2 => exact ih h2 hf

/-! ## C1: `AddUVParam` is first-writer-wins -/

/-- C1: `AddUVParam` on an absent name returns true, stores exactly the given
pair under the name and touches nothing else; on a present name it returns
false and leaves the object as it was; hence a second call for the same name
with any other pair returns false and changes nothing, and the pair of the
first call stays in place. -/
theorem C1_AddUVParam_first_writer_wins {B : TProtoBridge} (s : TQueryData B) (name : String)
    (type type2 : TType) (value value2 : TUnboxedValue) :
    (s.UnboxedData.find name = none →
      (s.AddUVParam name type value).1 = true ∧
      (s.AddUVParam name type value).2.UnboxedData.find name = some (type, value) ∧
      (∀ other, other ≠ name →
        (s.AddUVParam name type value).2.UnboxedData.find other = s.UnboxedData.find other) ∧
      (s.AddUVParam name type value).2.Params = s.Params ∧
      (s.AddUVParam name type value).2.TxResults = s.TxResults ∧
      (s.AddUVParam name type value).2.AllocState = s.AllocState ∧
      ((s.AddUVParam name type value).2.AddUVParam name type2 value2).2.UnboxedData.find name
        = some (type, value)) ∧
    (∀ tv, s.UnboxedData.find name = some tv → s.AddUVParam name type value = (false, s)) ∧
    (s.AddUVParam name type value).2.AddUVParam name type2 value2
      = (false, (s.AddUVParam name type value).2) := by
  have second : (s.AddUVParam name type value).2.AddUVParam name type2 value2
      = (false, (s.AddUVParam name type value).2) := by
    obtain ⟨tv, htv⟩ := TQueryData.AddUVParam_has s name type value
    exact TQueryData.AddUVParam_present _ name type2 value2 tv htv
  refine ⟨?_, ?_, second⟩
  · intro h
    have hsame : (s.AddUVParam name type value).2.UnboxedData.find name = some (type, value) :=
      TNameMap.find_emplace_same s.UnboxedData name (type, value) h
    refine ⟨?_, hsame, ?_, rfl, rfl, rfl, ?_⟩
    · rw [TQueryData.AddUVParam_absent s name type value h]
    · intro other ho
      exact TQueryData.AddUVParam_other s name other type value ho
    · rw [second]
      exact hsame
  · intro tv h
    exact TQueryData.AddUVParam_present s name type value tv h

/-- Witness for C1: on a new object, adding `p1` as (Ui64, 42) and then as
(Ui64, 43) keeps 42 and the second call returns false. -/
theorem C1_AddUVParam_first_writer_wins_witness :
    (TQueryData.init idBridge TTxAllocatorState.init).UnboxedData.find "p1" = none ∧
    ((TQueryData.init idBridge TTxAllocatorState.init).AddUVParam "p1" TType.Ui64
        (TUnboxedValue.Ui64 42)).1 = true ∧
    ((((TQueryData.init idBridge TTxAllocatorState.init).AddUVParam "p1" TType.Ui64
        (TUnboxedValue.Ui64 42)).2.AddUVParam "p1" TType.Ui64
        (TUnboxedValue.Ui64 43)).2.UnboxedData.find "p1"
      = some (TType.Ui64, TUnboxedValue.Ui64 42)) ∧
    (((TQueryData.init idBridge TTxAllocatorState.init).AddUVParam "p1" TType.Ui64
        (TUnboxedValue.Ui64 42)).2.AddUVParam "p1" TType.Ui64 (TUnboxedValue.Ui64 43)).1
      = false :=
  have h := C1_AddUVParam_first_writer_wins (TQueryData.init idBridge TTxAllocatorState.init)
    "p1" TType.Ui64 TType.Ui64 (TUnboxedValue.Ui64 42) (TUnboxedValue.Ui64 43)
  ⟨rfl, (h.1 rfl).1, (h.1 rfl).2.2.2.2.2.2, congrArg Prod.fst h.2.2⟩

/-! ## C2: invariant I1 in every reachable state -/

/-- C2: invariant I1 holds in every reachable state: after any sequence of calls
on a newly constructed object, every name of the serialized cache is a name of
the parameter map, and its cached form is the export of the pair stored under
that name. -/
theorem C2_I1_every_reachable_state {B : TProtoBridge} (allocatorState : TTxAllocatorState)
    (calls : List (TCall B)) (name : String) (p : TParams B)
    (hp : (runCalls (TQueryData.init B allocatorState) calls).Params.find name = some p) :
    ∃ tv, (runCalls (TQueryData.init B allocatorState) calls).UnboxedData.find name = some tv ∧
      p = exportParam B tv :=
  TQueryData.I1_runCalls calls _ (TQueryData.I1_init allocatorState) name p hp

/-- Witness for C2: after adding `p1`, serializing it, and adding `p1` again
with another value, the cache entry of `p1` is the export of the stored pair. -/
theorem C2_I1_every_reachable_state_witness :
    (runCalls (TQueryData.init idBridge TTxAllocatorState.init)
        [TCall.AddUVParam "p1" TType.Ui64 (TUnboxedValue.Ui64 42),
         TCall.GetParameterMiniKqlValue "p1",
         TCall.AddUVParam "p1" TType.Ui64 (TUnboxedValue.Ui64 43)]).Params.find "p1"
      = some (exportParam idBridge (TType.Ui64, TUnboxedValue.Ui64 42)) ∧
    ∃ tv, (runCalls (TQueryData.init idBridge TTxAllocatorState.init)
        [TCall.AddUVParam "p1" TType.Ui64 (TUnboxedValue.Ui64 42),
         TCall.GetParameterMiniKqlValue "p1",
         TCall.AddUVParam "p1" TType.Ui64 (TUnboxedValue.Ui64 43)]).UnboxedData.find "p1"
        = some tv ∧
      exportParam idBridge (TType.Ui64, TUnboxedValue.Ui64 42) = exportParam idBridge tv :=
  ⟨rfl, C2_I1_every_reachable_state TTxAllocatorState.init _ "p1" _ rfl⟩

/-! ## C3: `GetParameterMiniKqlValue` -/

/-- C3: in every reachable state `GetParameterMiniKqlValue` returns none exactly
when the name is absent from the parameter map; for a present name it returns
the export of the stored pair and that form is then in the serialized cache;
the parameter map, the transaction results and the allocator state are left
unchanged; and when the bridge's import inverts its export, the form returned
after `AddUVParam` of an absent name decodes back to the pair added. -/
theorem C3_GetParameterMiniKqlValue {B : TProtoBridge} (s : TQueryData B) (hs : Reachable s)
    (name : String) :
    ((s.GetParameterMiniKqlValue name).1 = .ok none ↔ s.UnboxedData.find name = none) ∧
    (∀ tv, s.UnboxedData.find name = some tv →
      (s.GetParameterMiniKqlValue name).1 = .ok (some (exportParam B tv)) ∧
      (s.GetParameterMiniKqlValue name).2.Params.find name = some (exportParam B tv)) ∧
    (s.GetParameterMiniKqlValue name).2.UnboxedData = s.UnboxedData ∧
    (s.GetParameterMiniKqlValue name).2.TxResults = s.TxResults ∧
    (s.GetParameterMiniKqlValue name).2.AllocState = s.AllocState ∧
    (ImportInvertsExport B → s.UnboxedData.find name = none →
      ∀ (type : TType) (value : TUnboxedValue),
        ∃ p, ((s.AddUVParam name type value).2.GetParameterMiniKqlValue name).1 = .ok (some p) ∧
          B.ImportMkqlValueFromProto p.Type_ p.Value = (type, value)) := by
  obtain ⟨allocatorState, calls, rfl⟩ := hs
  have hI := TQueryData.I1_runCalls calls _ (TQueryData.I1_init (B := B) allocatorState)
  generalize runCalls (TQueryData.init B allocatorState) calls = s at hI
  have present : ∀ (t : TQueryData B), I1 t → ∀ tv, t.UnboxedData.find name = some tv →
      (t.GetParameterMiniKqlValue name).1 = .ok (some (exportParam B tv)) ∧
      (t.GetParameterMiniKqlValue name).2.Params.find name = some (exportParam B tv) := by
    intro t ht tv htv
    have hcache := TQueryData.GetParameterMiniKqlValue_Params_same t name ht
    rw [htv] at hcache
    refine ⟨?_, hcache⟩
    cases hp : t.Params.find name with
    | none => rw [TQueryData.GetParameterMiniKqlValue_fresh t name tv htv hp]
    | some p =>
      rw [TQueryData.GetParameterMiniKqlValue_cached t name tv p htv hp]
      obtain ⟨tv2, h2, hpe⟩ := ht name p hp
      rw [htv] at h2
      rw [hpe, ← Option.some.inj h2]
  refine ⟨?_, present s hI, TQueryData.GetParameterMiniKqlValue_UnboxedData s name,
    TQueryData.GetParameterMiniKqlValue_TxResults s name,
    TQueryData.GetParameterMiniKqlValue_AllocState s name, ?_⟩
  · constructor
    · intro h
      cases hu : s.UnboxedData.find name with
      | none => rfl
      | some tv =>
        rw [(present s hI tv hu).1] at h
        cases h
    · intro h
      rw [TQueryData.GetParameterMiniKqlValue_absent s name h]
  · intro hrt habsent type value
    have hadd : (s.AddUVParam name type value).2.UnboxedData.find name = some (type, value) :=
      TNameMap.find_emplace_same s.UnboxedData name (type, value) habsent
    refine ⟨exportParam B (type, value),
      (present _ (TQueryData.I1_AddUVParam s name type value hI) _ hadd).1, ?_⟩
    exact hrt type value

/-- Witness for C3 (scenario A): on a new object, after `AddUVParam` of `p1` as
(Ui64, 42) the serialized form of `p1` decodes back to (Ui64, 42). -/
theorem C3_GetParameterMiniKqlValue_witness :
    Reachable (TQueryData.init idBridge TTxAllocatorState.init) ∧
    ImportInvertsExport idBridge ∧
    ∃ p, (((TQueryData.init idBridge TTxAllocatorState.init).AddUVParam "p1" TType.Ui64
        (TUnboxedValue.Ui64 42)).2.GetParameterMiniKqlValue "p1").1 = .ok (some p) ∧
      idBridge.ImportMkqlValueFromProto p.Type_ p.Value = (TType.Ui64, TUnboxedValue.Ui64 42) :=
  ⟨⟨TTxAllocatorState.init, [], rfl⟩, fun _ _ => rfl,
    (C3_GetParameterMiniKqlValue (TQueryData.init idBridge TTxAllocatorState.init)
      ⟨TTxAllocatorState.init, [], rfl⟩ "p1").2.2.2.2.2 (fun _ _ => rfl) rfl
      TType.Ui64 (TUnboxedValue.Ui64 42)⟩

/-! ## C4: materializing a transaction-result binding -/

/-- C4, counterexample: the object holds `r` as (Ui64, 1) and the transaction
results hold (Int32, 7) at (0, 0); `MaterializeParamValue` of the
transaction-result binding `r` at (0, 0) returns true, and afterwards
`GetParameterUnboxedValue` of `r` is still (Ui64, 1), not the referenced result. -/
theorem C4_txResult_copy_counterexample :
    Reachable (runCalls (TQueryData.init idBridge TTxAllocatorState.init)
      [TCall.AddUVParam "r" TType.Ui64 (TUnboxedValue.Ui64 1),
       TCall.AddTxResults [(TType.Int32, TUnboxedValue.Int32 7)]]) ∧
    (runCalls (TQueryData.init idBridge TTxAllocatorState.init)
      [TCall.AddUVParam "r" TType.Ui64 (TUnboxedValue.Ui64 1),
       TCall.AddTxResults [(TType.Int32, TUnboxedValue.Int32 7)]]).GetTxResult 0 0
      = some (TType.Int32, TUnboxedValue.Int32 7) ∧
    ((runCalls (TQueryData.init idBridge TTxAllocatorState.init)
      [TCall.AddUVParam "r" TType.Ui64 (TUnboxedValue.Ui64 1),
       TCall.AddTxResults [(TType.Int32, TUnboxedValue.Int32 7)]]).MaterializeParamValue
        ⟨0, 0, 0, 0, 0, 0, ⟨0, 0, 0, 0⟩⟩ false
        { Name := "r", TypeCase := .kTxResultBinding 0 0 }).1 = .ok true ∧
    (((runCalls (TQueryData.init idBridge TTxAllocatorState.init)
      [TCall.AddUVParam "r" TType.Ui64 (TUnboxedValue.Ui64 1),
       TCall.AddTxResults [(TType.Int32, TUnboxedValue.Int32 7)]]).MaterializeParamValue
        ⟨0, 0, 0, 0, 0, 0, ⟨0, 0, 0, 0⟩⟩ false
        { Name := "r", TypeCase := .kTxResultBinding 0 0 }).2.GetParameterUnboxedValue "r").1
      = .ok (TType.Ui64, TUnboxedValue.Ui64 1) ∧
    (TType.Ui64, TUnboxedValue.Ui64 1) ≠ (TType.Int32, TUnboxedValue.Int32 7) :=
  ⟨⟨TTxAllocatorState.init, _, rfl⟩, rfl, rfl, rfl, by decide⟩

/-- C4, amended: when the transaction-result set has an entry at (t, r),
`MaterializeParamValue` of the binding returns true in either mode, leaves the
serialized cache, the transaction results and the allocator state alone, and
afterwards the name is present: a name that was absent holds exactly the pair
at (t, r), and a name that was present keeps the pair it had. -/
theorem C4_txResult_copy_amended {B : TProtoBridge} (s : TQueryData B) (env : TProviders)
    (ensure : Bool) (name : String) (t r : Nat) (tv : TTypedUnboxedValue)
    (h : s.GetTxResult t r = some tv) :
    (s.MaterializeParamValue env ensure { Name := name, TypeCase := .kTxResultBinding t r }).1
      = .ok true ∧
    (s.UnboxedData.find name = none →
      ((s.MaterializeParamValue env ensure
        { Name := name, TypeCase := .kTxResultBinding t r }).2.GetParameterUnboxedValue name).1
        = .ok tv) ∧
    (∀ old, s.UnboxedData.find name = some old →
      ((s.MaterializeParamValue env ensure
        { Name := name, TypeCase := .kTxResultBinding t r }).2.GetParameterUnboxedValue name).1
        = .ok old) ∧
    (s.MaterializeParamValue env ensure
      { Name := name, TypeCase := .kTxResultBinding t r }).2.Params = s.Params ∧
    (s.MaterializeParamValue env ensure
      { Name := name, TypeCase := .kTxResultBinding t r }).2.TxResults = s.TxResults ∧
    (s.MaterializeParamValue env ensure
      { Name := name, TypeCase := .kTxResultBinding t r }).2.AllocState = s.AllocState := by
  rw [TQueryData.MaterializeParamValue_txResult_present s env ensure name t r tv h]
  refine ⟨rfl, ?_, ?_, rfl, rfl, rfl⟩
  · intro habsent
    have hf : (s.AddUVParam name tv.1 tv.2).2.UnboxedData.find name = some tv :=
      TNameMap.find_emplace_same s.UnboxedData name (tv.1, tv.2) habsent
    simp [TQueryData.GetParameterUnboxedValue, hf]
  · intro old hold
    have hf := TQueryData.AddUVParam_keeps s name name tv.1 tv.2 old hold
    simp [TQueryData.GetParameterUnboxedValue, hf]

/-- Witness for the amended C4 (scenario D): with (Int32, 7) recorded at (0, 0) and
no parameter `r`, materializing the binding stores (Int32, 7) under `r`. -/
theorem C4_txResult_copy_amended_witness :
    ((TQueryData.init idBridge TTxAllocatorState.init).AddTxResults
      [(TType.Int32, TUnboxedValue.Int32 7)]).GetTxResult 0 0
      = some (TType.Int32, TUnboxedValue.Int32 7) ∧
    ((((TQueryData.init idBridge TTxAllocatorState.init).AddTxResults
      [(TType.Int32, TUnboxedValue.Int32 7)]).MaterializeParamValue
        ⟨0, 0, 0, 0, 0, 0, ⟨0, 0, 0, 0⟩⟩ false
        { Name := "r", TypeCase := .kTxResultBinding 0 0 }).2.GetParameterUnboxedValue "r").1
      = .ok (TType.Int32, TUnboxedValue.Int32 7) :=
  ⟨rfl, (C4_txResult_copy_amended
    ((TQueryData.init idBridge TTxAllocatorState.init).AddTxResults
      [(TType.Int32, TUnboxedValue.Int32 7)])
    ⟨0, 0, 0, 0, 0, 0, ⟨0, 0, 0, 0⟩⟩ false "r" 0 0 (TType.Int32, TUnboxedValue.Int32 7) rfl).2.1
    rfl⟩

/-! ## C5: gating of transaction-result bindings -/

/-- C5: when the transaction-result set has no entry at (t, r),
`MaterializeParamValue` of the binding returns false in non-strict mode and
throws in strict mode, and in both modes the whole object (parameter map,
serialized cache, transaction results, allocator state) is as before, so
nothing is stored under the name. -/
theorem C5_txResult_gating {B : TProtoBridge} (s : TQueryData B) (env : TProviders)
    (name : String) (t r : Nat) (h : s.GetTxResult t r = none) :
    s.MaterializeParamValue env false { Name := name, TypeCase := .kTxResultBinding t r }
      = (.ok false, s) ∧
    (∃ e, s.MaterializeParamValue env true { Name := name, TypeCase := .kTxResultBinding t r }
      = (.error e, s)) ∧
    (∀ ensure, (s.MaterializeParamValue env ensure
      { Name := name, TypeCase := .kTxResultBinding t r }).2.UnboxedData.find name
        = s.UnboxedData.find name) := by
  have hh : s.HasResult t r = false := by
    cases hb : s.HasResult t r with
    | false => rfl
    | true =>
      obtain ⟨tv, htv⟩ := (TQueryData.HasResult_iff_GetTxResult s t r).mp hb
      rw [h] at htv
      exact Option.noConfusion htv
  refine ⟨?_, ⟨.TYqlPanic "HasResult(txIndex, resultIndex)", ?_⟩, ?_⟩
  · rw [TQueryData.MaterializeParamValue_txResult_absent s env false name t r hh]
    rfl
  · rw [TQueryData.MaterializeParamValue_txResult_absent s env true name t r hh]
    rfl
  · intro ensure
    rw [TQueryData.MaterializeParamValue_txResult_absent s env ensure name t r hh]

/-- Witness for C5 (scenario D, first half): on a new object no result exists at
(0, 0); non-strict materialization of `r` returns false and changes nothing. -/
theorem C5_txResult_gating_witness :
    (TQueryData.init idBridge TTxAllocatorState.init).GetTxResult 0 0 = none ∧
    (TQueryData.init idBridge TTxAllocatorState.init).MaterializeParamValue
        ⟨0, 0, 0, 0, 0, 0, ⟨0, 0, 0, 0⟩⟩ false
        { Name := "r", TypeCase := .kTxResultBinding 0 0 }
      = (.ok false, TQueryData.init idBridge TTxAllocatorState.init) :=
  ⟨rfl, (C5_txResult_gating (TQueryData.init idBridge TTxAllocatorState.init)
    ⟨0, 0, 0, 0, 0, 0, ⟨0, 0, 0, 0⟩⟩ "r" 0 0 rfl).1⟩

/-! ## C6: external bindings -/

/-- C6: for an external binding `MaterializeParamValue` returns true exactly
when the name is already in the parameter map; when the name is absent it
returns false in non-strict mode and throws `Parameter not found: <name>` in
strict mode; in every case the whole object is left as it was. -/
theorem C6_external_binding {B : TProtoBridge} (s : TQueryData B) (env : TProviders)
    (ensure : Bool) (name : String) :
    ((s.MaterializeParamValue env ensure { Name := name, TypeCase := .kExternalBinding }).1
        = .ok true ↔ ∃ tv, s.UnboxedData.find name = some tv) ∧
    (s.UnboxedData.find name = none →
      (s.MaterializeParamValue env false { Name := name, TypeCase := .kExternalBinding }).1
        = .ok false ∧
      (s.MaterializeParamValue env true { Name := name, TypeCase := .kExternalBinding }).1
        = .error (.yexception ("Parameter not found: " ++ name))) ∧
    (s.MaterializeParamValue env ensure { Name := name, TypeCase := .kExternalBinding }).2 = s := by
  cases h : s.UnboxedData.find name with
  | some tv =>
    rw [TQueryData.MaterializeParamValue_external_present s env ensure name tv h]
    exact ⟨⟨fun _ => ⟨tv, rfl⟩, fun _ => rfl⟩, fun hn => Option.noConfusion hn, rfl⟩
  | none =>
    rw [TQueryData.MaterializeParamValue_external_absent s env ensure name h,
      TQueryData.MaterializeParamValue_external_absent s env false name h,
      TQueryData.MaterializeParamValue_external_absent s env true name h]
    refine ⟨⟨?_, ?_⟩, fun _ => ⟨rfl, rfl⟩, rfl⟩
    · intro hok
      cases ensure <;> simp at hok
    · rintro ⟨tv, htv⟩
      exact Option.noConfusion htv

/-- Witness for C6 (scenario C): on a new object the strict materialization of
the external binding `missing` throws `Parameter not found: missing`. -/
theorem C6_external_binding_witness :
    (TQueryData.init idBridge TTxAllocatorState.init).UnboxedData.find "missing" = none ∧
    ((TQueryData.init idBridge TTxAllocatorState.init).MaterializeParamValue
        ⟨0, 0, 0, 0, 0, 0, ⟨0, 0, 0, 0⟩⟩ true
        { Name := "missing", TypeCase := .kExternalBinding }).1
      = .error (.yexception "Parameter not found: missing") :=
  ⟨rfl, ((C6_external_binding (TQueryData.init idBridge TTxAllocatorState.init)
    ⟨0, 0, 0, 0, 0, 0, ⟨0, 0, 0, 0⟩⟩ true "missing").2.1 rfl).2⟩

/-! ## C7: internal bindings -/

/-- C7: for an internal binding of a supported kind, with the clock value of a
date kind within the 32-bit range, `MaterializeParamValue` returns true in
either mode and afterwards the name is present in the parameter map; a name
that was absent holds the pair `GetInternalBindingValue` produced for the kind
(for `PARAM_NOW` a Ui64 value below 2^64), a name that was present keeps its pair. -/
theorem C7_internal_binding {B : TProtoBridge} (s : TQueryData B) (env : TProviders)
    (ensure : Bool) (name : String) (kind : EInternalBindingType)
    (hk : kind.IsSupported = true) (hc : ClockWithin32 s.AllocState env kind) :
    (s.MaterializeParamValue env ensure { Name := name, TypeCase := .kInternalBinding kind }).1
      = .ok true ∧
    (∃ tv, (s.MaterializeParamValue env ensure
      { Name := name, TypeCase := .kInternalBinding kind }).2.UnboxedData.find name = some tv) ∧
    (s.UnboxedData.find name = none →
      ∃ tv, (s.AllocState.GetInternalBindingValue env kind).1 = .ok tv ∧
        (s.MaterializeParamValue env ensure
          { Name := name, TypeCase := .kInternalBinding kind }).2.UnboxedData.find name
          = some tv) ∧
    (kind = .PARAM_NOW → s.UnboxedData.find name = none →
      ∃ v, v < 2 ^ 64 ∧
        (s.MaterializeParamValue env ensure
          { Name := name, TypeCase := .kInternalBinding kind }).2.UnboxedData.find name
          = some (TType.Ui64, TUnboxedValue.Ui64 v)) ∧
    (∀ old, s.UnboxedData.find name = some old →
      (s.MaterializeParamValue env ensure
        { Name := name, TypeCase := .kInternalBinding kind }).2.UnboxedData.find name
        = some old) := by
  obtain ⟨tv, htv⟩ := TTxAllocatorState.GetInternalBindingValue_ok s.AllocState env kind hk hc
  rw [TQueryData.MaterializeParamValue_internal_ok s env ensure name kind tv htv]
  have hnew : s.UnboxedData.find name = none →
      (({ s with AllocState := (s.AllocState.GetInternalBindingValue env kind).2 }
        : TQueryData B).AddUVParam name tv.1 tv.2).2.UnboxedData.find name = some tv := by
    intro habsent
    exact TNameMap.find_emplace_same s.UnboxedData name (tv.1, tv.2) habsent
  refine ⟨rfl, TQueryData.AddUVParam_has _ name tv.1 tv.2, ?_, ?_, ?_⟩
  · intro habsent
    exact ⟨tv, htv, hnew habsent⟩
  · intro hnow habsent
    subst hnow
    refine ⟨ui64 (s.AllocState.GetCachedNow env).1, ui64_lt _, ?_⟩
    rw [hnew habsent]
    have e : (s.AllocState.GetInternalBindingValue env .PARAM_NOW).1
        = .ok (TType.Ui64, TUnboxedValue.Ui64 (ui64 (s.AllocState.GetCachedNow env).1)) := rfl
    rw [e] at htv
    exact congrArg some (Except.ok.inj htv).symm
  · intro old hold
    exact TQueryData.AddUVParam_keeps _ name name tv.1 tv.2 old hold

/-- Witness for C7 (scenario B): on a new object with the clock reading 1700000000,
strict materialization of the internal binding `now` of kind `PARAM_NOW`
returns true and stores (Ui64, 1700000000) under `now`. -/
theorem C7_internal_binding_witness :
    EInternalBindingType.PARAM_NOW.IsSupported = true ∧
    ((TQueryData.init idBridge TTxAllocatorState.init).MaterializeParamValue
        ⟨1700000000, 0, 0, 0, 0, 0, ⟨0, 0, 0, 0⟩⟩ true
        { Name := "now", TypeCase := .kInternalBinding .PARAM_NOW }).1 = .ok true ∧
    ((TQueryData.init idBridge TTxAllocatorState.init).MaterializeParamValue
        ⟨1700000000, 0, 0, 0, 0, 0, ⟨0, 0, 0, 0⟩⟩ true
        { Name := "now", TypeCase := .kInternalBinding .PARAM_NOW }).2.UnboxedData.find "now"
      = some (TType.Ui64, TUnboxedValue.Ui64 1700000000) :=
  ⟨rfl, (C7_internal_binding (TQueryData.init idBridge TTxAllocatorState.init)
    ⟨1700000000, 0, 0, 0, 0, 0, ⟨0, 0, 0, 0⟩⟩ true "now" .PARAM_NOW rfl trivial).1, rfl⟩

/-! ## C8: `Clear` -/

/-- C8: after `Clear` the parameter map, the serialized cache and the
transaction-result set are empty, so `GetParameterType` and
`GetParameterMiniKqlValue` return none for every name and every
transaction-result binding resolves to false in non-strict mode; every slot of
the internal-value cache is empty, so the next access of each kind returns the
providers' reading of that moment and an internal resolution gives what it
gives on a newly constructed allocator state, whatever was cached before. -/
theorem C8_Clear_resets_everything {B : TProtoBridge} (s : TQueryData B) :
    s.Clear.UnboxedData = [] ∧ s.Clear.Params = [] ∧ s.Clear.TxResults = [] ∧
    (∀ n, (s.Clear.GetParameterType n).1 = none ∧
      s.Clear.GetParameterMiniKqlValue n = (.ok none, s.Clear)) ∧
    (∀ env name t r, s.Clear.MaterializeParamValue env false
      { Name := name, TypeCase := .kTxResultBinding t r } = (.ok false, s.Clear)) ∧
    s.Clear.AllocState = TTxAllocatorState.init ∧
    (∀ env : TProviders,
      (s.Clear.AllocState.GetCachedNow env).1 = ui64 env.Now ∧
      (s.Clear.AllocState.GetCachedDate env).1 = ui64 env.Date ∧
      (s.Clear.AllocState.GetCachedDatetime env).1 = ui64 env.Datetime ∧
      (s.Clear.AllocState.GetCachedTimestamp env).1 = ui64 env.Timestamp ∧
      (s.Clear.AllocState.GetCachedRandomUi64 env).1 = ui64 env.RandomNumber ∧
      (s.Clear.AllocState.GetCachedRandomDouble env).1 = ui64 env.RandomDouble ∧
      (s.Clear.AllocState.GetCachedRandomGuid env).1
        = { dw0 := ui32 env.RandomUuid.dw0, dw1 := ui32 env.RandomUuid.dw1,
            dw2 := ui32 env.RandomUuid.dw2, dw3 := ui32 env.RandomUuid.dw3 }) ∧
    (∀ env kind, s.Clear.AllocState.GetInternalBindingValue env kind
      = TTxAllocatorState.init.GetInternalBindingValue env kind) := by
  refine ⟨rfl, rfl, rfl, fun n => ⟨rfl, rfl⟩, ?_, rfl,
    fun env => ⟨rfl, rfl, rfl, rfl, rfl, rfl, rfl⟩, fun env kind => rfl⟩
  intro env name t r
  have hh : s.Clear.HasResult t r = false := by
    simp [TQueryData.HasResult, TQueryData.Clear]
  rw [TQueryData.MaterializeParamValue_txResult_absent s.Clear env false name t r hh]
  rfl

/-! ## C9: lookups -/

/-- C9: `GetParameterType` returns none exactly when the name is absent from the
parameter map and otherwise the stored type; `GetParameterUnboxedValue` throws
`Param <name> not found` exactly when the name is absent and otherwise returns
the stored pair, whose type is what `GetParameterType` returns; neither call
changes the object. -/
theorem C9_lookup_contract {B : TProtoBridge} (s : TQueryData B) (name : String) :
    ((s.GetParameterType name).1 = none ↔ s.UnboxedData.find name = none) ∧
    (∀ tv, s.UnboxedData.find name = some tv →
      (s.GetParameterType name).1 = some tv.1 ∧ (s.GetParameterUnboxedValue name).1 = .ok tv) ∧
    ((∃ e, (s.GetParameterUnboxedValue name).1 = .error e) ↔ s.UnboxedData.find name = none) ∧
    (s.UnboxedData.find name = none →
      (s.GetParameterUnboxedValue name).1
        = .error (.TYqlPanic ("Param " ++ name ++ " not found"))) ∧
    (∀ tv, (s.GetParameterUnboxedValue name).1 = .ok tv →
      (s.GetParameterType name).1 = some tv.1) ∧
    (s.GetParameterType name).2 = s ∧
    (s.GetParameterUnboxedValue name).2 = s := by
  unfold TQueryData.GetParameterType TQueryData.GetParameterUnboxedValue
  cases h : s.UnboxedData.find name with
  | none =>
    refine ⟨⟨fun _ => rfl, fun _ => rfl⟩, fun tv htv => Option.noConfusion htv,
      ⟨fun _ => rfl, fun _ => ⟨_, rfl⟩⟩, fun _ => rfl, ?_, rfl, rfl⟩
    intro tv htv
    cases htv
  | some it =>
    refine ⟨⟨fun hn => Option.noConfusion hn, fun hn => Option.noConfusion hn⟩, ?_,
      ⟨?_, fun hn => Option.noConfusion hn⟩, fun hn => Option.noConfusion hn, ?_, rfl, rfl⟩
    · intro tv htv
      cases htv
      exact ⟨rfl, rfl⟩
    · rintro ⟨e, he⟩
      cases he
    · intro tv htv
      cases htv
      rfl

/-- Witness for C9: on an object holding `p1` as (Ui64, 42), `GetParameterType`
returns Ui64 and `GetParameterUnboxedValue` returns (Ui64, 42); for the absent
name `q` the value lookup throws `Param q not found`. -/
theorem C9_lookup_contract_witness :
    (((TQueryData.init idBridge TTxAllocatorState.init).AddUVParam "p1" TType.Ui64
      (TUnboxedValue.Ui64 42)).2.GetParameterType "p1").1 = some TType.Ui64 ∧
    (((TQueryData.init idBridge TTxAllocatorState.init).AddUVParam "p1" TType.Ui64
      (TUnboxedValue.Ui64 42)).2.GetParameterUnboxedValue "p1").1
      = .ok (TType.Ui64, TUnboxedValue.Ui64 42) ∧
    (((TQueryData.init idBridge TTxAllocatorState.init).AddUVParam "p1" TType.Ui64
      (TUnboxedValue.Ui64 42)).2.GetParameterUnboxedValue "q").1
      = .error (.TYqlPanic "Param q not found") :=
  ⟨((C9_lookup_contract ((TQueryData.init idBridge TTxAllocatorState.init).AddUVParam "p1"
      TType.Ui64 (TUnboxedValue.Ui64 42)).2 "p1").2.1 (TType.Ui64, TUnboxedValue.Ui64 42) rfl).1,
    rfl, rfl⟩

/-! ## C10: `GetParams` -/

/-- C10: in every reachable state `GetParams` returns the serialized cache as it
is after the call; that cache has exactly the names of the parameter map, each
mapped to the export of the pair stored under it; the parameter map, the
transaction results and the allocator state are unchanged. -/
theorem C10_GetParams_serializes_all {B : TProtoBridge} (s : TQueryData B) (hs : Reachable s) :
    s.GetParams.1 = .ok s.GetParams.2.Params ∧
    (∀ n, s.GetParams.2.Params.find n = (s.UnboxedData.find n).map (exportParam B)) ∧
    (∀ n, n ∈ s.GetParams.2.Params.map Prod.fst ↔ n ∈ s.UnboxedData.map Prod.fst) ∧
    s.GetParams.2.UnboxedData = s.UnboxedData ∧
    s.GetParams.2.TxResults = s.TxResults ∧
    s.GetParams.2.AllocState = s.AllocState := by
  obtain ⟨allocatorState, calls, rfl⟩ := hs
  have hI := TQueryData.I1_runCalls calls _ (TQueryData.I1_init (B := B) allocatorState)
  generalize runCalls (TQueryData.init B allocatorState) calls = s at hI
  obtain ⟨h1, h2, h3, h4, h5, _, h7⟩ :=
    TQueryData.GetParamsLoop_spec (s.UnboxedData.map Prod.fst) s hI
  have hpair : s.GetParamsLoop (s.UnboxedData.map Prod.fst)
      = (.ok (), (s.GetParamsLoop (s.UnboxedData.map Prod.fst)).2) := by
    rw [← h1]
  have hg : s.GetParams = (.ok (s.GetParamsLoop (s.UnboxedData.map Prod.fst)).2.Params,
      (s.GetParamsLoop (s.UnboxedData.map Prod.fst)).2) := by
    simp only [TQueryData.GetParams]
    rw [hpair]
  rw [hg]
  have hfind : ∀ n, (s.GetParamsLoop (s.UnboxedData.map Prod.fst)).2.Params.find n
      = (s.UnboxedData.find n).map (exportParam B) := by
    intro n
    cases hu : s.UnboxedData.find n with
    | some tv =>
      rw [h7 n (TNameMap.mem_keys_of_find s.UnboxedData n tv hu), hu]
    | none =>
      cases hq : (s.GetParamsLoop (s.UnboxedData.map Prod.fst)).2.Params.find n with
      | none => rfl
      | some q =>
        obtain ⟨tv, htv, _⟩ := h5 n q hq
        rw [h2, hu] at htv
        exact Option.noConfusion htv
  refine ⟨rfl, hfind, ?_, h2, h3, h4⟩
  intro n
  constructor
  · intro hn
    obtain ⟨q, hq⟩ := TNameMap.find_of_mem_keys _ n hn
    rw [hfind n] at hq
    cases hu : s.UnboxedData.find n with
    | none => rw [hu] at hq; exact Option.noConfusion hq
    | some tv => exact TNameMap.mem_keys_of_find s.UnboxedData n tv hu
  · intro hn
    obtain ⟨tv, htv⟩ := TNameMap.find_of_mem_keys _ n hn
    have hq := hfind n
    rw [htv] at hq
    exact TNameMap.mem_keys_of_find _ n _ hq

/-- Witness for C10: on an object holding `a` and `b`, with only `a` serialized
so far, `GetParams` leaves the export of `b` in the cache as well. -/
theorem C10_GetParams_serializes_all_witness :
    Reachable (runCalls (TQueryData.init idBridge TTxAllocatorState.init)
      [TCall.AddUVParam "a" TType.Ui64 (TUnboxedValue.Ui64 1),
       TCall.AddUVParam "b" TType.Ui32 (TUnboxedValue.Ui32 2),
       TCall.GetParameterMiniKqlValue "a"]) ∧
    (runCalls (TQueryData.init idBridge TTxAllocatorState.init)
      [TCall.AddUVParam "a" TType.Ui64 (TUnboxedValue.Ui64 1),
       TCall.AddUVParam "b" TType.Ui32 (TUnboxedValue.Ui32 2),
       TCall.GetParameterMiniKqlValue "a"]).GetParams.2.Params.find "b"
      = some (exportParam idBridge (TType.Ui32, TUnboxedValue.Ui32 2)) :=
  ⟨⟨TTxAllocatorState.init, _, rfl⟩,
    ((C10_GetParams_serializes_all (runCalls (TQueryData.init idBridge TTxAllocatorState.init)
      [TCall.AddUVParam "a" TType.Ui64 (TUnboxedValue.Ui64 1),
       TCall.AddUVParam "b" TType.Ui32 (TUnboxedValue.Ui32 2),
       TCall.GetParameterMiniKqlValue "a"]) ⟨TTxAllocatorState.init, _, rfl⟩).2.1 "b").trans rfl⟩

/-! ## What calls other than `Clear` keep -/

namespace TQueryData

variable {B : TProtoBridge}

theorem GetParameterType_state (s : TQueryData B) (name : String) :
    (s.GetParameterType name).2 = s := by
  unfold GetParameterType
  cases s.UnboxedData.find name <;> rfl

theorem GetParameterUnboxedValue_state (s : TQueryData B) (name : String) :
    (s.GetParameterUnboxedValue name).2 = s := by
  unfold GetParameterUnboxedValue
  cases s.UnboxedData.find name <;> rfl

/-- The loop of `GetParams` leaves the parameter map, the transaction results
and the allocator state as they are, in every state. -/
theorem GetParamsLoop_frame (names : List String) :
    ∀ s : TQueryData B,
      (s.GetParamsLoop names).2.UnboxedData = s.UnboxedData ∧
      (s.GetParamsLoop names).2.TxResults = s.TxResults ∧
      (s.GetParamsLoop names).2.AllocState = s.AllocState := by
  induction names with
  | nil => intro s; exact ⟨rfl, rfl, rfl⟩
  | cons name rest ih =>
    intro s
    obtain ⟨r, hr⟩ := GetParameterMiniKqlValue_ok s name
    have hpair : s.GetParameterMiniKqlValue name
        = (.ok r, (s.GetParameterMiniKqlValue name).2) := by
      rw [← hr]
    have hstep : s.GetParamsLoop (name :: rest)
        = (s.GetParameterMiniKqlValue name).2.GetParamsLoop rest := by
      simp only [GetParamsLoop]
      rw [hpair]
    obtain ⟨i1, i2, i3⟩ := ih (s.GetParameterMiniKqlValue name).2
    rw [hstep]
    exact ⟨i1.trans (GetParameterMiniKqlValue_UnboxedData s name),
      i2.trans (GetParameterMiniKqlValue_TxResults s name),
      i3.trans (GetParameterMiniKqlValue_AllocState s name)⟩

theorem GetParams_frame (s : TQueryData B) :
    s.GetParams.2.UnboxedData = s.UnboxedData ∧
    s.GetParams.2.TxResults = s.TxResults ∧
    s.GetParams.2.AllocState = s.AllocState := by
  have hf := GetParamsLoop_frame (s.UnboxedData.map Prod.fst) s
  have hg : s.GetParams.2 = (s.GetParamsLoop (s.UnboxedData.map Prod.fst)).2 := by
    simp only [GetParams]
    split <;> rename_i heq <;> rw [heq]
  rw [hg]
  exact hf

/-- A call other than `Clear` keeps every pair the parameter map holds. -/
theorem apply_keeps (s : TQueryData B) (c : TCall B) (hc : c.IsClear = false) (name : String)
    (tv : TTypedUnboxedValue) (h : s.UnboxedData.find name = some tv) :
    (c.apply s).UnboxedData.find name = some tv := by
  cases c with
  | AddUVParam n type value => exact AddUVParam_keeps s n name type value tv h
  | AddTypedValueParam n ptype pvalue => exact AddUVParam_keeps s n name _ _ tv h
  | AddMkqlParam n t v => exact AddUVParam_keeps s n name _ _ tv h
  | GetParameterType n =>
    show (s.GetParameterType n).2.UnboxedData.find name = some tv
    rw [GetParameterType_state]; exact h
  | GetParameterUnboxedValue n =>
    show (s.GetParameterUnboxedValue n).2.UnboxedData.find name = some tv
    rw [GetParameterUnboxedValue_state]; exact h
  | GetParameterMiniKqlValue n =>
    show (s.GetParameterMiniKqlValue n).2.UnboxedData.find name = some tv
    rw [GetParameterMiniKqlValue_UnboxedData]; exact h
  | GetParams =>
    show s.GetParams.2.UnboxedData.find name = some tv
    rw [(GetParams_frame s).1]; exact h
  | MaterializeParamValue env ensure paramBinding =>
    exact (MaterializeParamValue_frame s env ensure paramBinding).2.2 name tv h
  | Clear => exact absurd hc (by simp [TCall.IsClear])
  | AddTxResults results => exact h

theorem runCalls_keeps (calls : List (TCall B)) :
    ∀ s : TQueryData B, (∀ c ∈ calls, c.IsClear = false) →
      ∀ (name : String) (tv : TTypedUnboxedValue), s.UnboxedData.find name = some tv →
        (runCalls s calls).UnboxedData.find name = some tv := by
  induction calls with
  | nil => intro s _ name tv h; exact h
  | cons c rest ih =>
    intro s hno name tv h
    exact ih (c.apply s) (fun d hd => hno d (List.mem_cons_of_mem c hd)) name tv
      (apply_keeps s c (hno c (List.mem_cons_self c rest)) name tv h)

end TQueryData

/-! ## C11: the parameter map is write-once -/

/-- C11: every call other than `Clear` (`AddUVParam`, `AddTypedValueParam`,
`AddMkqlParam`, `MaterializeParamValue` for any binding and strict flag,
`GetParameterMiniKqlValue`, `GetParams`, the lookups) keeps every name of the
parameter map with the identical pair, also when the call throws; hence along
any sequence of calls without `Clear` a name keeps the pair it was first
given. -/
theorem C11_write_once {B : TProtoBridge} (s : TQueryData B) (name : String)
    (tv : TTypedUnboxedValue) (h : s.UnboxedData.find name = some tv) :
    (∀ n type value, (s.AddUVParam n type value).2.UnboxedData.find name = some tv) ∧
    (∀ n ptype pvalue, (s.AddTypedValueParam n ptype pvalue).2.UnboxedData.find name = some tv) ∧
    (∀ n t v, (s.AddMkqlParam n t v).2.UnboxedData.find name = some tv) ∧
    (∀ env ensure paramBinding,
      (s.MaterializeParamValue env ensure paramBinding).2.UnboxedData.find name = some tv) ∧
    (∀ n, (s.GetParameterMiniKqlValue n).2.UnboxedData.find name = some tv) ∧
    s.GetParams.2.UnboxedData.find name = some tv ∧
    (∀ calls : List (TCall B), (∀ c ∈ calls, c.IsClear = false) →
      (runCalls s calls).UnboxedData.find name = some tv) := by
  refine ⟨fun n type value => TQueryData.AddUVParam_keeps s n name type value tv h,
    fun n ptype pvalue => TQueryData.AddUVParam_keeps s n name _ _ tv h,
    fun n t v => TQueryData.AddUVParam_keeps s n name _ _ tv h,
    fun env ensure paramBinding =>
      (TQueryData.MaterializeParamValue_frame s env ensure paramBinding).2.2 name tv h,
    ?_, ?_, fun calls hno => TQueryData.runCalls_keeps calls s hno name tv h⟩
  · intro n
    rw [TQueryData.GetParameterMiniKqlValue_UnboxedData]
    exact h
  · rw [(TQueryData.GetParams_frame s).1]
    exact h

/-- Witness for C11: `now` was added as (Ui64, 7); an internal resolution under
the same name, an `AddUVParam` of the name with another pair and a `GetParams`
leave that first pair in place. -/
theorem C11_write_once_witness :
    ((TQueryData.init idBridge TTxAllocatorState.init).AddUVParam "now" TType.Ui64
      (TUnboxedValue.Ui64 7)).2.UnboxedData.find "now"
      = some (TType.Ui64, TUnboxedValue.Ui64 7) ∧
    (runCalls ((TQueryData.init idBridge TTxAllocatorState.init).AddUVParam "now" TType.Ui64
      (TUnboxedValue.Ui64 7)).2
      [TCall.MaterializeParamValue ⟨9, 0, 0, 0, 0, 0, ⟨0, 0, 0, 0⟩⟩ true
          { Name := "now", TypeCase := .kInternalBinding .PARAM_NOW },
       TCall.AddUVParam "now" TType.Ui32 (TUnboxedValue.Ui32 1),
       TCall.GetParams]).UnboxedData.find "now"
      = some (TType.Ui64, TUnboxedValue.Ui64 7) :=
  ⟨rfl, (C11_write_once ((TQueryData.init idBridge TTxAllocatorState.init).AddUVParam "now"
      TType.Ui64 (TUnboxedValue.Ui64 7)).2 "now" (TType.Ui64, TUnboxedValue.Ui64 7) rfl).2.2.2.2.2.2
    _ (by decide)⟩

/-! ## Stability of the internal-value cache -/

theorem CacheKept.refl (st : TTxAllocatorState) : CacheKept st st :=
  ⟨fun _ h => h, fun _ h => h, fun _ h => h, fun _ h => h, fun _ h => h, fun _ h => h,
    fun _ h => h⟩

theorem CacheKept.trans {a b c : TTxAllocatorState} (h1 : CacheKept a b) (h2 : CacheKept b c) :
    CacheKept a c :=
  ⟨fun v h => h2.1 v (h1.1 v h), fun v h => h2.2.1 v (h1.2.1 v h),
    fun v h => h2.2.2.1 v (h1.2.2.1 v h), fun v h => h2.2.2.2.1 v (h1.2.2.2.1 v h),
    fun v h => h2.2.2.2.2.1 v (h1.2.2.2.2.1 v h),
    fun v h => h2.2.2.2.2.2.1 v (h1.2.2.2.2.2.1 v h),
    fun v h => h2.2.2.2.2.2.2 v (h1.2.2.2.2.2.2 v h)⟩

theorem CacheKept.of_eq {a b : TTxAllocatorState} (h : b = a) : CacheKept a b := by
  subst h
  exact CacheKept.refl b

namespace TTxAllocatorState

/-- A call of `GetInternalBindingValue` keeps every slot that is populated. -/
theorem GetInternalBindingValue_kept (st : TTxAllocatorState) (env : TProviders)
    (kind : EInternalBindingType) : CacheKept st (st.GetInternalBindingValue env kind).2 := by
  cases kind with
  | PARAM_NOW =>
    cases h : st.CachedNow with
    | none =>
      simp only [GetInternalBindingValue, GetCachedNow, h]
      exact ⟨fun v hv => (by rw [h] at hv; cases hv), fun _ hv => hv, fun _ hv => hv,
        fun _ hv => hv, fun _ hv => hv, fun _ hv => hv, fun _ hv => hv⟩
    | some w =>
      simp only [GetInternalBindingValue, GetCachedNow, h]
      exact CacheKept.refl st
  | PARAM_CURRENT_DATE =>
    have hst : (st.GetInternalBindingValue env .PARAM_CURRENT_DATE).2
        = (st.GetCachedDate env).2 := by
      simp only [GetInternalBindingValue]
      split <;> rfl
    rw [hst]
    cases h : st.CachedDate with
    | none =>
      simp only [GetCachedDate, h]
      exact ⟨fun _ hv => hv, fun v hv => (by rw [h] at hv; cases hv), fun _ hv => hv,
        fun _ hv => hv, fun _ hv => hv, fun _ hv => hv, fun _ hv => hv⟩
    | some w =>
      simp only [GetCachedDate, h]
      exact CacheKept.refl st
  | PARAM_CURRENT_DATETIME =>
    have hst : (st.GetInternalBindingValue env .PARAM_CURRENT_DATETIME).2
        = (st.GetCachedDatetime env).2 := by
      simp only [GetInternalBindingValue]
      split <;> rfl
    rw [hst]
    cases h : st.CachedDatetime with
    | none =>
      simp only [GetCachedDatetime, h]
      exact ⟨fun _ hv => hv, fun _ hv => hv, fun v hv => (by rw [h] at hv; cases hv),
        fun _ hv => hv, fun _ hv => hv, fun _ hv => hv, fun _ hv => hv⟩
    | some w =>
      simp only [GetCachedDatetime, h]
      exact CacheKept.refl st
  | PARAM_CURRENT_TIMESTAMP =>
    cases h : st.CachedTimestamp with
    | none =>
      simp only [GetInternalBindingValue, GetCachedTimestamp, h]
      exact ⟨fun _ hv => hv, fun _ hv => hv, fun _ hv => hv,
        fun v hv => (by rw [h] at hv; cases hv), fun _ hv => hv, fun _ hv => hv, fun _ hv => hv⟩
    | some w =>
      simp only [GetInternalBindingValue, GetCachedTimestamp, h]
      exact CacheKept.refl st
  | PARAM_RANDOM_NUMBER =>
    cases h : st.CachedRandomNumber with
    | none =>
      simp only [GetInternalBindingValue, GetCachedRandomUi64, h]
      exact ⟨fun _ hv => hv, fun _ hv => hv, fun _ hv => hv, fun _ hv => hv,
        fun v hv => (by rw [h] at hv; cases hv), fun _ hv => hv, fun _ hv => hv⟩
    | some w =>
      simp only [GetInternalBindingValue, GetCachedRandomUi64, h]
      exact CacheKept.refl st
  | PARAM_RANDOM =>
    cases h : st.CachedRandomDouble with
    | none =>
      simp only [GetInternalBindingValue, GetCachedRandomDouble, h]
      exact ⟨fun _ hv => hv, fun _ hv => hv, fun _ hv => hv, fun _ hv => hv, fun _ hv => hv,
        fun v hv => (by rw [h] at hv; cases hv), fun _ hv => hv⟩
    | some w =>
      simp only [GetInternalBindingValue, GetCachedRandomDouble, h]
      exact CacheKept.refl st
  | PARAM_RANDOM_UUID =>
    cases h : st.CachedRandomUuid with
    | none =>
      simp only [GetInternalBindingValue, GetCachedRandomGuid, h]
      exact ⟨fun _ hv => hv, fun _ hv => hv, fun _ hv => hv, fun _ hv => hv, fun _ hv => hv,
        fun _ hv => hv, fun v hv => (by rw [h] at hv; cases hv)⟩
    | some w =>
      simp only [GetInternalBindingValue, GetCachedRandomGuid, h]
      exact CacheKept.refl st
  | Other tag => exact CacheKept.refl st

/-- Once a kind has been resolved, resolving it again on any allocator state
that kept the populated slots gives the same outcome whatever the providers
return now, and writes nothing. -/
theorem GetInternalBindingValue_stable (st : TTxAllocatorState) (env : TProviders)
    (kind : EInternalBindingType) (st2 : TTxAllocatorState)
    (hk : CacheKept (st.GetInternalBindingValue env kind).2 st2) (env2 : TProviders) :
    st2.GetInternalBindingValue env2 kind = ((st.GetInternalBindingValue env kind).1, st2) := by
  obtain ⟨k1, k2, k3, k4, k5, k6, k7⟩ := hk
  cases kind with
  | PARAM_NOW =>
    cases h : st.CachedNow with
    | none =>
      have e := k1 (ui64 env.Now) (by simp [GetInternalBindingValue, GetCachedNow, h])
      simp [GetInternalBindingValue, GetCachedNow, h, e]
    | some w =>
      have e := k1 w (by simp [GetInternalBindingValue, GetCachedNow, h])
      simp [GetInternalBindingValue, GetCachedNow, h, e]
  | PARAM_CURRENT_DATE =>
    have hst : (st.GetInternalBindingValue env .PARAM_CURRENT_DATE).2
        = (st.GetCachedDate env).2 := by
      simp only [GetInternalBindingValue]
      split <;> rfl
    rw [hst] at k2
    cases h : st.CachedDate with
    | none =>
      have e := k2 (ui64 env.Date) (by simp [GetCachedDate, h])
      simp only [GetInternalBindingValue, GetCachedDate, h, e]
      split <;> rfl
    | some w =>
      have e := k2 w (by simp [GetCachedDate, h])
      simp only [GetInternalBindingValue, GetCachedDate, h, e]
      split <;> rfl
  | PARAM_CURRENT_DATETIME =>
    have hst : (st.GetInternalBindingValue env .PARAM_CURRENT_DATETIME).2
        = (st.GetCachedDatetime env).2 := by
      simp only [GetInternalBindingValue]
      split <;> rfl
    rw [hst] at k3
    cases h : st.CachedDatetime with
    | none =>
      have e := k3 (ui64 env.Datetime) (by simp [GetCachedDatetime, h])
      simp only [GetInternalBindingValue, GetCachedDatetime, h, e]
      split <;> rfl
    | some w =>
      have e := k3 w (by simp [GetCachedDatetime, h])
      simp only [GetInternalBindingValue, GetCachedDatetime, h, e]
      split <;> rfl
  | PARAM_CURRENT_TIMESTAMP =>
    cases h : st.CachedTimestamp with
    | none =>
      have e := k4 (ui64 env.Timestamp) (by simp [GetInternalBindingValue, GetCachedTimestamp, h])
      simp [GetInternalBindingValue, GetCachedTimestamp, h, e]
    | some w =>
      have e := k4 w (by simp [GetInternalBindingValue, GetCachedTimestamp, h])
      simp [GetInternalBindingValue, GetCachedTimestamp, h, e]
  | PARAM_RANDOM_NUMBER =>
    cases h : st.CachedRandomNumber with
    | none =>
      have e := k5 (ui64 env.RandomNumber)
        (by simp [GetInternalBindingValue, GetCachedRandomUi64, h])
      simp [GetInternalBindingValue, GetCachedRandomUi64, h, e]
    | some w =>
      have e := k5 w (by simp [GetInternalBindingValue, GetCachedRandomUi64, h])
      simp [GetInternalBindingValue, GetCachedRandomUi64, h, e]
  | PARAM_RANDOM =>
    cases h : st.CachedRandomDouble with
    | none =>
      have e := k6 (ui64 env.RandomDouble)
        (by simp [GetInternalBindingValue, GetCachedRandomDouble, h])
      simp [GetInternalBindingValue, GetCachedRandomDouble, h, e]
    | some w =>
      have e := k6 w (by simp [GetInternalBindingValue, GetCachedRandomDouble, h])
      simp [GetInternalBindingValue, GetCachedRandomDouble, h, e]
  | PARAM_RANDOM_UUID =>
    cases h : st.CachedRandomUuid with
    | none =>
      have e := k7 _ (by simp [GetInternalBindingValue, GetCachedRandomGuid, h]; rfl)
      simp [GetInternalBindingValue, GetCachedRandomGuid, h, e]
    | some w =>
      have e := k7 w (by simp [GetInternalBindingValue, GetCachedRandomGuid, h])
      simp [GetInternalBindingValue, GetCachedRandomGuid, h, e]
  | Other tag => rfl

end TTxAllocatorState

namespace TQueryData

variable {B : TProtoBridge}

/-- Whatever the binding and the outcome, `MaterializeParamValue` keeps the
populated slots of the internal-value cache. -/
theorem MaterializeParamValue_AllocState_kept (s : TQueryData B) (env : TProviders)
    (ensure : Bool) (paramBinding : TKqpPhyParamBinding) :
    CacheKept s.AllocState (s.MaterializeParamValue env ensure paramBinding).2.AllocState := by
  obtain ⟨name, tc⟩ := paramBinding
  cases tc with
  | kExternalBinding =>
    cases h : s.UnboxedData.find name with
    | none =>
      rw [MaterializeParamValue_external_absent s env ensure name h]
      exact CacheKept.refl _
    | some tv =>
      rw [MaterializeParamValue_external_present s env ensure name tv h]
      exact CacheKept.refl _
  | kTxResultBinding txIndex resultIndex =>
    cases h : s.GetTxResult txIndex resultIndex with
    | none =>
      have hh : s.HasResult txIndex resultIndex = false := by
        cases hb : s.HasResult txIndex resultIndex with
        | false => rfl
        | true =>
          obtain ⟨tv, htv⟩ := (HasResult_iff_GetTxResult s txIndex resultIndex).mp hb
          rw [h] at htv
          exact Option.noConfusion htv
      rw [MaterializeParamValue_txResult_absent s env ensure name txIndex resultIndex hh]
      exact CacheKept.refl _
    | some tv =>
      rw [MaterializeParamValue_txResult_present s env ensure name txIndex resultIndex tv h]
      exact CacheKept.refl _
  | kInternalBinding internalType =>
    cases h : (s.AllocState.GetInternalBindingValue env internalType).1 with
    | error e =>
      rw [MaterializeParamValue_internal_error s env ensure name internalType e h]
      exact TTxAllocatorState.GetInternalBindingValue_kept s.AllocState env internalType
    | ok tv =>
      rw [MaterializeParamValue_internal_ok s env ensure name internalType tv h]
      exact TTxAllocatorState.GetInternalBindingValue_kept s.AllocState env internalType
  | Other tag =>
    rw [MaterializeParamValue_other s env ensure name tag]
    exact CacheKept.refl _

/-- A call other than `Clear` keeps the populated slots of the internal-value cache. -/
theorem apply_AllocState_kept (s : TQueryData B) (c : TCall B) (hc : c.IsClear = false) :
    CacheKept s.AllocState (c.apply s).AllocState := by
  cases c with
  | AddUVParam n type value => exact CacheKept.refl _
  | AddTypedValueParam n ptype pvalue => exact CacheKept.refl _
  | AddMkqlParam n t v => exact CacheKept.refl _
  | GetParameterType n =>
    exact CacheKept.of_eq (congrArg TQueryData.AllocState (GetParameterType_state s n))
  | GetParameterUnboxedValue n =>
    exact CacheKept.of_eq (congrArg TQueryData.AllocState (GetParameterUnboxedValue_state s n))
  | GetParameterMiniKqlValue n =>
    exact CacheKept.of_eq (GetParameterMiniKqlValue_AllocState s n)
  | GetParams => exact CacheKept.of_eq (GetParams_frame s).2.2
  | MaterializeParamValue env ensure paramBinding =>
    exact MaterializeParamValue_AllocState_kept s env ensure paramBinding
  | Clear => exact absurd hc (by simp [TCall.IsClear])
  | AddTxResults results => exact CacheKept.refl _

theorem runCalls_AllocState_kept (calls : List (TCall B)) :
    ∀ s : TQueryData B, (∀ c ∈ calls, c.IsClear = false) →
      CacheKept s.AllocState (runCalls s calls).AllocState := by
  induction calls with
  | nil => intro s _; exact CacheKept.refl _
  | cons c rest ih =>
    intro s hno
    exact CacheKept.trans (apply_AllocState_kept s c (hno c (List.mem_cons_self c rest)))
      (ih (c.apply s) (fun d hd => hno d (List.mem_cons_of_mem c hd)))

end TQueryData

theorem bytesOfUi64_length (x : Nat) : (bytesOfUi64 x).length = 8 := by
  simp [bytesOfUi64]

/-! ## C12: stability of internal values -/

/-- C12: after an internal kind has been resolved once, resolving it again gives
the identical outcome and writes nothing to the cache, whatever the time and
random providers return at the second call, and whatever calls other than
`Clear` were made on the object in between; for a supported kind with the date
clock in range both outcomes are the same (type, value) pair, and for
`PARAM_RANDOM_UUID` both are the same 16-byte payload. -/
theorem C12_internal_value_stability {B : TProtoBridge} (s : TQueryData B)
    (env1 env2 : TProviders) (kind : EInternalBindingType) (calls : List (TCall B))
    (hno : ∀ c ∈ calls, c.IsClear = false) :
    (s.AllocState.GetInternalBindingValue env1 kind).2.GetInternalBindingValue env2 kind
      = ((s.AllocState.GetInternalBindingValue env1 kind).1,
          (s.AllocState.GetInternalBindingValue env1 kind).2) ∧
    ((runCalls (s.GetInternalBindingValue env1 kind).2 calls).GetInternalBindingValue
        env2 kind).1 = (s.GetInternalBindingValue env1 kind).1 ∧
    ((runCalls (s.GetInternalBindingValue env1 kind).2 calls).GetInternalBindingValue
        env2 kind).2 = runCalls (s.GetInternalBindingValue env1 kind).2 calls ∧
    (kind.IsSupported = true → ClockWithin32 s.AllocState env1 kind →
      ∃ tv, (s.GetInternalBindingValue env1 kind).1 = .ok tv ∧
        ((runCalls (s.GetInternalBindingValue env1 kind).2 calls).GetInternalBindingValue
          env2 kind).1 = .ok tv) ∧
    (kind = .PARAM_RANDOM_UUID →
      ∃ bytes : List Nat, bytes.length = 16 ∧
        (s.GetInternalBindingValue env1 kind).1 = .ok (TType.Uuid, TUnboxedValue.String bytes) ∧
        ((runCalls (s.GetInternalBindingValue env1 kind).2 calls).GetInternalBindingValue
          env2 kind).1 = .ok (TType.Uuid, TUnboxedValue.String bytes)) := by
  have hkept : CacheKept (s.AllocState.GetInternalBindingValue env1 kind).2
      (runCalls (s.GetInternalBindingValue env1 kind).2 calls).AllocState :=
    TQueryData.runCalls_AllocState_kept calls (s.GetInternalBindingValue env1 kind).2 hno
  generalize runCalls (s.GetInternalBindingValue env1 kind).2 calls = t at hkept ⊢
  have hst := TTxAllocatorState.GetInternalBindingValue_stable s.AllocState env1 kind
    t.AllocState hkept env2
  have h2 : (t.GetInternalBindingValue env2 kind).1 = (s.GetInternalBindingValue env1 kind).1 := by
    show (t.AllocState.GetInternalBindingValue env2 kind).1
      = (s.AllocState.GetInternalBindingValue env1 kind).1
    rw [hst]
  refine ⟨TTxAllocatorState.GetInternalBindingValue_stable s.AllocState env1 kind _
    (CacheKept.refl _) env2, h2, ?_, ?_, ?_⟩
  · show ({ t with AllocState := (t.AllocState.GetInternalBindingValue env2 kind).2 }
      : TQueryData B) = t
    rw [hst]
  · intro hk hc
    obtain ⟨tv, htv⟩ := TTxAllocatorState.GetInternalBindingValue_ok s.AllocState env1 kind hk hc
    have h1 : (s.GetInternalBindingValue env1 kind).1 = .ok tv := htv
    exact ⟨tv, h1, h2.trans h1⟩
  · intro hu
    subst hu
    refine ⟨_, ?_, rfl, h2.trans rfl⟩
    simp [bytesOfUi64_length]

/-- Witness for C12: on a new object the identifier is resolved while the random
provider returns the words 1, 2, 3, 4; after an unrelated resolution of
`PARAM_NOW`, a second resolution while the provider returns 5, 6, 7, 8 still
yields the payload of 1, 2, 3, 4. -/
theorem C12_internal_value_stability_witness :
    ((runCalls ((TQueryData.init idBridge TTxAllocatorState.init).GetInternalBindingValue
        ⟨0, 0, 0, 0, 0, 0, ⟨1, 2, 3, 4⟩⟩ .PARAM_RANDOM_UUID).2
      [TCall.MaterializeParamValue ⟨9, 0, 0, 0, 0, 0, ⟨5, 6, 7, 8⟩⟩ false
        { Name := "now", TypeCase := .kInternalBinding .PARAM_NOW }]).GetInternalBindingValue
      ⟨9, 0, 0, 0, 0, 0, ⟨5, 6, 7, 8⟩⟩ .PARAM_RANDOM_UUID).1
      = .ok (TType.Uuid,
          TUnboxedValue.String [1, 0, 0, 0, 2, 0, 0, 0, 3, 0, 0, 0, 4, 0, 0, 0]) :=
  ((C12_internal_value_stability (TQueryData.init idBridge TTxAllocatorState.init)
    ⟨0, 0, 0, 0, 0, 0, ⟨1, 2, 3, 4⟩⟩ ⟨9, 0, 0, 0, 0, 0, ⟨5, 6, 7, 8⟩⟩ .PARAM_RANDOM_UUID
    [TCall.MaterializeParamValue ⟨9, 0, 0, 0, 0, 0, ⟨5, 6, 7, 8⟩⟩ false
      { Name := "now", TypeCase := .kInternalBinding .PARAM_NOW }] (by decide)).2.1).trans
    rfl

/-! ## The encodings chosen by `GetInternalBindingValue` -/

theorem ui64_of_lt (x : Nat) (h : x < 2 ^ 64) : ui64 x = x := by
  unfold ui64
  exact Nat.mod_eq_of_lt h

theorem ui32_of_le (x : Nat) (h : x ≤ MaxUi32) : ui32 x = x := by
  unfold ui32
  unfold MaxUi32 at h
  exact Nat.mod_eq_of_lt (by omega)

namespace TTxAllocatorState

theorem GetInternalBindingValue_date (st : TTxAllocatorState) (env : TProviders) :
    st.GetInternalBindingValue env .PARAM_CURRENT_DATE
      = (.ok (TType.Ui32, TUnboxedValue.Ui32 (ui32 (st.GetCachedDate env).1)),
          (st.GetCachedDate env).2) := by
  have hidem : ui32 (ui32 (st.GetCachedDate env).1) = ui32 (st.GetCachedDate env).1 :=
    ui32_of_le _ (ui32_le_MaxUi32 _)
  simp [GetInternalBindingValue, ui32_le_MaxUi32, hidem]

theorem GetInternalBindingValue_datetime_fits (st : TTxAllocatorState) (env : TProviders)
    (h : (st.GetCachedDatetime env).1 ≤ MaxUi32) :
    st.GetInternalBindingValue env .PARAM_CURRENT_DATETIME
      = (.ok (TType.Ui32, TUnboxedValue.Ui32 (st.GetCachedDatetime env).1),
          (st.GetCachedDatetime env).2) := by
  have h64 : ui64 (st.GetCachedDatetime env).1 = (st.GetCachedDatetime env).1 :=
    ui64_of_lt _ (by unfold MaxUi32 at h; omega)
  simp [GetInternalBindingValue, h64, h, ui32_of_le _ h]

theorem GetInternalBindingValue_datetime_overflow (st : TTxAllocatorState) (env : TProviders)
    (h64 : (st.GetCachedDatetime env).1 < 2 ^ 64) (h : MaxUi32 < (st.GetCachedDatetime env).1) :
    st.GetInternalBindingValue env .PARAM_CURRENT_DATETIME
      = (.error (.TYqlPanic "datetime <= Max<ui32>()"), (st.GetCachedDatetime env).2) := by
  have e64 : ui64 (st.GetCachedDatetime env).1 = (st.GetCachedDatetime env).1 :=
    ui64_of_lt _ h64
  simp [GetInternalBindingValue, e64, Nat.not_le.mpr h]

end TTxAllocatorState

/-! ## C13: one typed encoding per internal kind -/

/-- C13: `GetInternalBindingValue` gives each kind one typed encoding: for
`PARAM_NOW`, `PARAM_CURRENT_TIMESTAMP` and `PARAM_RANDOM_NUMBER` a Ui64 equal to
the cached 64-bit number, for `PARAM_RANDOM` a Double, for `PARAM_RANDOM_UUID`
a Uuid-typed string, for `PARAM_CURRENT_DATE` a Ui32, and for
`PARAM_CURRENT_DATETIME` a Ui32 equal to the cached 64-bit datetime when that
is at most 2^32-1 and the failed check, with no value, when it is above; a
slot the cache fills itself holds a 64-bit number. -/
theorem C13_typed_encodings (st : TTxAllocatorState) (env : TProviders) :
    ((st.GetCachedNow env).1 < 2 ^ 64 →
      (st.GetInternalBindingValue env .PARAM_NOW).1
        = .ok (TType.Ui64, TUnboxedValue.Ui64 (st.GetCachedNow env).1)) ∧
    ((st.GetCachedTimestamp env).1 < 2 ^ 64 →
      (st.GetInternalBindingValue env .PARAM_CURRENT_TIMESTAMP).1
        = .ok (TType.Ui64, TUnboxedValue.Ui64 (st.GetCachedTimestamp env).1)) ∧
    ((st.GetCachedRandomUi64 env).1 < 2 ^ 64 →
      (st.GetInternalBindingValue env .PARAM_RANDOM_NUMBER).1
        = .ok (TType.Ui64, TUnboxedValue.Ui64 (st.GetCachedRandomUi64 env).1)) ∧
    (st.GetInternalBindingValue env .PARAM_RANDOM).1
      = .ok (TType.Double, TUnboxedValue.Double (st.GetCachedRandomDouble env).1) ∧
    (∃ bytes, (st.GetInternalBindingValue env .PARAM_RANDOM_UUID).1
      = .ok (TType.Uuid, TUnboxedValue.String bytes)) ∧
    (∃ v, v ≤ MaxUi32 ∧ (st.GetInternalBindingValue env .PARAM_CURRENT_DATE).1
      = .ok (TType.Ui32, TUnboxedValue.Ui32 v)) ∧
    ((st.GetCachedDatetime env).1 ≤ MaxUi32 →
      (st.GetInternalBindingValue env .PARAM_CURRENT_DATETIME).1
        = .ok (TType.Ui32, TUnboxedValue.Ui32 (st.GetCachedDatetime env).1)) ∧
    ((st.GetCachedDatetime env).1 < 2 ^ 64 → MaxUi32 < (st.GetCachedDatetime env).1 →
      (st.GetInternalBindingValue env .PARAM_CURRENT_DATETIME).1
        = .error (.TYqlPanic "datetime <= Max<ui32>()")) ∧
    (st.CachedNow = none → (st.GetCachedNow env).1 < 2 ^ 64) ∧
    (st.CachedTimestamp = none → (st.GetCachedTimestamp env).1 < 2 ^ 64) ∧
    (st.CachedRandomNumber = none → (st.GetCachedRandomUi64 env).1 < 2 ^ 64) ∧
    (st.CachedDatetime = none → (st.GetCachedDatetime env).1 < 2 ^ 64) := by
  refine ⟨?_, ?_, ?_, rfl, ⟨_, rfl⟩, ?_, ?_, ?_, ?_, ?_, ?_, ?_⟩
  · intro h
    show Except.ok (TType.Ui64, TUnboxedValue.Ui64 (ui64 (st.GetCachedNow env).1)) = _
    rw [ui64_of_lt _ h]
  · intro h
    show Except.ok (TType.Ui64, TUnboxedValue.Ui64 (ui64 (st.GetCachedTimestamp env).1)) = _
    rw [ui64_of_lt _ h]
  · intro h
    show Except.ok (TType.Ui64, TUnboxedValue.Ui64 (ui64 (st.GetCachedRandomUi64 env).1)) = _
    rw [ui64_of_lt _ h]
  · refine ⟨ui32 (st.GetCachedDate env).1, ui32_le_MaxUi32 _, ?_⟩
    rw [TTxAllocatorState.GetInternalBindingValue_date]
  · intro h
    rw [TTxAllocatorState.GetInternalBindingValue_datetime_fits st env h]
  · intro h64 h
    rw [TTxAllocatorState.GetInternalBindingValue_datetime_overflow st env h64 h]
  · intro h
    simp only [TTxAllocatorState.GetCachedNow, h]
    exact ui64_lt _
  · intro h
    simp only [TTxAllocatorState.GetCachedTimestamp, h]
    exact ui64_lt _
  · intro h
    simp only [TTxAllocatorState.GetCachedRandomUi64, h]
    exact ui64_lt _
  · intro h
    simp only [TTxAllocatorState.GetCachedDatetime, h]
    exact ui64_lt _

/-- Witness for C13: on a new allocator state with the datetime reading 2^32 the
datetime kind fails its check, and with the clock reading 5 `PARAM_NOW` is
(Ui64, 5). -/
theorem C13_typed_encodings_witness :
    (TTxAllocatorState.init.GetCachedDatetime ⟨5, 0, 4294967296, 0, 0, 0, ⟨0, 0, 0, 0⟩⟩).1
      < 2 ^ 64 ∧
    MaxUi32 < (TTxAllocatorState.init.GetCachedDatetime
      ⟨5, 0, 4294967296, 0, 0, 0, ⟨0, 0, 0, 0⟩⟩).1 ∧
    (TTxAllocatorState.init.GetInternalBindingValue ⟨5, 0, 4294967296, 0, 0, 0, ⟨0, 0, 0, 0⟩⟩
      .PARAM_CURRENT_DATETIME).1 = .error (.TYqlPanic "datetime <= Max<ui32>()") ∧
    (TTxAllocatorState.init.GetInternalBindingValue ⟨5, 0, 4294967296, 0, 0, 0, ⟨0, 0, 0, 0⟩⟩
      .PARAM_NOW).1 = .ok (TType.Ui64, TUnboxedValue.Ui64 5) :=
  ⟨by decide, by decide,
    (C13_typed_encodings TTxAllocatorState.init
      ⟨5, 0, 4294967296, 0, 0, 0, ⟨0, 0, 0, 0⟩⟩).2.2.2.2.2.2.2.1 (by decide) (by decide),
    (C13_typed_encodings TTxAllocatorState.init
      ⟨5, 0, 4294967296, 0, 0, 0, ⟨0, 0, 0, 0⟩⟩).1 (by decide)⟩

/-! ## C14: the range of `PARAM_CURRENT_DATE` -/

theorem bytesOfUi64_eq (x : Nat) :
    bytesOfUi64 x = [x % 256, x / 256 % 256, x / 65536 % 256, x / 16777216 % 256,
      x / 4294967296 % 256, x / 1099511627776 % 256, x / 281474976710656 % 256,
      x / 72057594037927936 % 256] := by
  simp [bytesOfUi64, List.range, List.range.loop]

theorem bytesOfUi32_eq (x : Nat) :
    bytesOfUi32 x = [x % 256, x / 256 % 256, x / 65536 % 256, x / 16777216 % 256] := by
  simp [bytesOfUi32, List.range, List.range.loop]

/-- The bytes of a 64-bit word made of two 32-bit words are the bytes of the low
word followed by the bytes of the high word. -/
theorem bytesOfUi64_halves (a b : Nat) (ha : a < 2 ^ 32) :
    bytesOfUi64 (a + 2 ^ 32 * b) = bytesOfUi32 a ++ bytesOfUi32 b := by
  rw [bytesOfUi64_eq, bytesOfUi32_eq, bytesOfUi32_eq]
  norm_num at ha ⊢
  refine ⟨?_, ?_, ?_, ?_, ?_, ?_, ?_, ?_⟩ <;> omega

theorem bytesOfUi32_injective (a b : Nat) (ha : a < 2 ^ 32) (hb : b < 2 ^ 32)
    (h : bytesOfUi32 a = bytesOfUi32 b) : a = b := by
  rw [bytesOfUi32_eq, bytesOfUi32_eq] at h
  simp only [List.cons.injEq, and_true] at h
  obtain ⟨h0, h1, h2, h3⟩ := h
  norm_num at ha hb
  omega

theorem bytesOfUi32_length (x : Nat) : (bytesOfUi32 x).length = 4 := by
  simp [bytesOfUi32]

theorem bytesOfUi32_lt (x b : Nat) (hb : b ∈ bytesOfUi32 x) : b < 256 := by
  simp only [bytesOfUi32, List.mem_map] at hb
  obtain ⟨i, _, rfl⟩ := hb
  exact Nat.mod_lt _ (by norm_num)

theorem uuid_words_injective (g h : TGUID) (hg : g.IsValid) (hh : h.IsValid)
    (e : bytesOfUi32 g.dw0 ++ bytesOfUi32 g.dw1 ++ bytesOfUi32 g.dw2 ++ bytesOfUi32 g.dw3
      = bytesOfUi32 h.dw0 ++ bytesOfUi32 h.dw1 ++ bytesOfUi32 h.dw2 ++ bytesOfUi32 h.dw3) :
    g = h := by
  obtain ⟨a0, a1, a2, a3⟩ := g
  obtain ⟨b0, b1, b2, b3⟩ := h
  obtain ⟨ha0, ha1, ha2, ha3⟩ := hg
  obtain ⟨hb0, hb1, hb2, hb3⟩ := hh
  simp only [bytesOfUi32_eq, List.cons_append, List.nil_append, List.cons.injEq, and_true] at e
  obtain ⟨e0, e1, e2, e3, e4, e5, e6, e7, e8, e9, e10, e11, e12, e13, e14, e15⟩ := e
  have w0 : a0 = b0 :=
    bytesOfUi32_injective a0 b0 ha0 hb0 (by simp [bytesOfUi32_eq, e0, e1, e2, e3])
  have w1 : a1 = b1 :=
    bytesOfUi32_injective a1 b1 ha1 hb1 (by simp [bytesOfUi32_eq, e4, e5, e6, e7])
  have w2 : a2 = b2 :=
    bytesOfUi32_injective a2 b2 ha2 hb2 (by simp [bytesOfUi32_eq, e8, e9, e10, e11])
  have w3 : a3 = b3 :=
    bytesOfUi32_injective a3 b3 ha3 hb3 (by simp [bytesOfUi32_eq, e12, e13, e14, e15])
  rw [w0, w1, w2, w3]

theorem TTxAllocatorState.GetInternalBindingValue_uuid (st : TTxAllocatorState)
    (env : TProviders) (hv : (st.GetCachedRandomGuid env).1.IsValid) :
    (st.GetInternalBindingValue env .PARAM_RANDOM_UUID).1
      = .ok (TType.Uuid, TUnboxedValue.String
          (bytesOfUi32 (st.GetCachedRandomGuid env).1.dw0
            ++ bytesOfUi32 (st.GetCachedRandomGuid env).1.dw1
            ++ bytesOfUi32 (st.GetCachedRandomGuid env).1.dw2
            ++ bytesOfUi32 (st.GetCachedRandomGuid env).1.dw3)) := by
  show Except.ok (TType.Uuid, TUnboxedValue.String
    (bytesOfUi64 ((st.GetCachedRandomGuid env).1.dw0 + 2 ^ 32 * (st.GetCachedRandomGuid env).1.dw1)
      ++ bytesOfUi64 ((st.GetCachedRandomGuid env).1.dw2
        + 2 ^ 32 * (st.GetCachedRandomGuid env).1.dw3))) = _
  rw [bytesOfUi64_halves _ _ hv.1, bytesOfUi64_halves _ _ hv.2.2.1, List.append_assoc,
    List.append_assoc, List.append_assoc]

/-! ## C15: byte layout of `PARAM_RANDOM_UUID` -/

/-- C15: for an identifier of four 32-bit words, `GetInternalBindingValue` returns
as the Uuid payload the 8 little-endian bytes of dw0 + 2^32 * dw1 followed by
the 8 little-endian bytes of dw2 + 2^32 * dw3, which are the little-endian
bytes of dw0, dw1, dw2, dw3 in that order: 16 bytes, each below 256; two
identifiers with the same payload are the same identifier; and an identifier
the cache generates itself has 32-bit words. -/
theorem C15_uuid_byte_layout (st : TTxAllocatorState) (env : TProviders) (g : TGUID)
    (hg : (st.GetCachedRandomGuid env).1 = g) (hv : g.IsValid) :
    (st.GetInternalBindingValue env .PARAM_RANDOM_UUID).1
      = .ok (TType.Uuid, TUnboxedValue.String
          (bytesOfUi64 (g.dw0 + 2 ^ 32 * g.dw1) ++ bytesOfUi64 (g.dw2 + 2 ^ 32 * g.dw3))) ∧
    bytesOfUi64 (g.dw0 + 2 ^ 32 * g.dw1) ++ bytesOfUi64 (g.dw2 + 2 ^ 32 * g.dw3)
      = bytesOfUi32 g.dw0 ++ bytesOfUi32 g.dw1 ++ bytesOfUi32 g.dw2 ++ bytesOfUi32 g.dw3 ∧
    (bytesOfUi64 (g.dw0 + 2 ^ 32 * g.dw1) ++ bytesOfUi64 (g.dw2 + 2 ^ 32 * g.dw3)).length = 16 ∧
    (∀ b ∈ bytesOfUi64 (g.dw0 + 2 ^ 32 * g.dw1) ++ bytesOfUi64 (g.dw2 + 2 ^ 32 * g.dw3),
      b < 256) ∧
    (∀ (st2 : TTxAllocatorState) (env2 : TProviders),
      (st2.GetCachedRandomGuid env2).1.IsValid →
      (st2.GetInternalBindingValue env2 .PARAM_RANDOM_UUID).1
        = (st.GetInternalBindingValue env .PARAM_RANDOM_UUID).1 →
      (st2.GetCachedRandomGuid env2).1 = g) ∧
    (∀ (st3 : TTxAllocatorState) (env3 : TProviders), st3.CachedRandomUuid = none →
      (st3.GetCachedRandomGuid env3).1.IsValid) := by
  subst hg
  have hsplit : bytesOfUi64 ((st.GetCachedRandomGuid env).1.dw0
        + 2 ^ 32 * (st.GetCachedRandomGuid env).1.dw1)
      ++ bytesOfUi64 ((st.GetCachedRandomGuid env).1.dw2
        + 2 ^ 32 * (st.GetCachedRandomGuid env).1.dw3)
      = bytesOfUi32 (st.GetCachedRandomGuid env).1.dw0
        ++ bytesOfUi32 (st.GetCachedRandomGuid env).1.dw1
        ++ bytesOfUi32 (st.GetCachedRandomGuid env).1.dw2
        ++ bytesOfUi32 (st.GetCachedRandomGuid env).1.dw3 := by
    rw [bytesOfUi64_halves _ _ hv.1, bytesOfUi64_halves _ _ hv.2.2.1, List.append_assoc,
      List.append_assoc, List.append_assoc]
  refine ⟨rfl, hsplit, ?_, ?_, ?_, ?_⟩
  · simp [bytesOfUi64_length]
  · intro b hb
    rw [hsplit] at hb
    simp only [List.mem_append] at hb
    rcases hb with ((hb | hb) | hb) | hb <;> exact bytesOfUi32_lt _ b hb
  · intro st2 env2 hv2 heq
    rw [TTxAllocatorState.GetInternalBindingValue_uuid st2 env2 hv2,
      TTxAllocatorState.GetInternalBindingValue_uuid st env hv] at heq
    have hl := Except.ok.inj heq
    have hl2 : TUnboxedValue.String _ = TUnboxedValue.String _ := (Prod.mk.inj hl).2
    exact uuid_words_injective _ _ hv2 hv (TUnboxedValue.String.inj hl2)
  · intro st3 env3 h3
    simp only [TTxAllocatorState.GetCachedRandomGuid, h3, TGUID.IsValid, ui32]
    refine ⟨?_, ?_, ?_, ?_⟩ <;> exact Nat.mod_lt _ (by norm_num)

/-- Witness for C15: the identifier with the words 0x04030201, 0x08070605,
0x0c0b0a09, 0x100f0e0d is laid out as the bytes 1, 2, ..., 16. -/
theorem C15_uuid_byte_layout_witness :
    (TTxAllocatorState.init.GetInternalBindingValue
      ⟨0, 0, 0, 0, 0, 0, ⟨67305985, 134678021, 202050057, 269422093⟩⟩ .PARAM_RANDOM_UUID).1
      = .ok (TType.Uuid, TUnboxedValue.String
          [1, 2, 3, 4, 5, 6, 7, 8, 9, 10, 11, 12, 13, 14, 15, 16]) :=
  ((C15_uuid_byte_layout TTxAllocatorState.init
    ⟨0, 0, 0, 0, 0, 0, ⟨67305985, 134678021, 202050057, 269422093⟩⟩
    ⟨67305985, 134678021, 202050057, 269422093⟩ rfl
    ⟨by decide, by decide, by decide, by decide⟩).1).trans rfl

/-! ## C16: malformed bindings -/

/-- C16: for a malformed binding (a oneof case that is none of the three, or an
internal binding whose kind is none of the seven) `MaterializeParamValue`
throws in both modes, so it returns no boolean, and the whole object, the
parameter map and the serialized cache included, is as before; the message
names the unexpected binding type, respectively the unexpected internal type. -/
theorem C16_malformed_bindings_fatal {B : TProtoBridge} (s : TQueryData B) (env : TProviders)
    (ensure : Bool) (paramBinding : TKqpPhyParamBinding)
    (h : paramBinding.IsMalformed = true) :
    ∃ e, s.MaterializeParamValue env ensure paramBinding = (.error e, s) ∧
      (∀ tag, paramBinding.TypeCase = .Other tag →
        e = .TYqlPanic ("Unexpected parameter binding type: " ++ toString tag)) ∧
      (∀ tag, paramBinding.TypeCase = .kInternalBinding (.Other tag) →
        e = .TYqlPanic ("Unexpected internal parameter type: " ++ toString tag)) := by
  obtain ⟨name, tc⟩ := paramBinding
  cases tc with
  | kExternalBinding => exact absurd h (by simp [TKqpPhyParamBinding.IsMalformed])
  | kTxResultBinding txIndex resultIndex =>
    exact absurd h (by simp [TKqpPhyParamBinding.IsMalformed])
  | kInternalBinding internalType =>
    cases internalType with
    | Other tag =>
      refine ⟨.TYqlPanic ("Unexpected internal parameter type: " ++ toString tag), rfl, ?_, ?_⟩
      · intro tag2 h2
        cases h2
      · intro tag2 h2
        cases h2
        rfl
    | PARAM_NOW => exact absurd h (by simp [TKqpPhyParamBinding.IsMalformed])
    | PARAM_CURRENT_DATE => exact absurd h (by simp [TKqpPhyParamBinding.IsMalformed])
    | PARAM_CURRENT_DATETIME => exact absurd h (by simp [TKqpPhyParamBinding.IsMalformed])
    | PARAM_CURRENT_TIMESTAMP => exact absurd h (by simp [TKqpPhyParamBinding.IsMalformed])
    | PARAM_RANDOM_NUMBER => exact absurd h (by simp [TKqpPhyParamBinding.IsMalformed])
    | PARAM_RANDOM => exact absurd h (by simp [TKqpPhyParamBinding.IsMalformed])
    | PARAM_RANDOM_UUID => exact absurd h (by simp [TKqpPhyParamBinding.IsMalformed])
  | Other tag =>
    refine ⟨.TYqlPanic ("Unexpected parameter binding type: " ++ toString tag), rfl, ?_, ?_⟩
    · intro tag2 h2
      cases h2
      rfl
    · intro tag2 h2
      cases h2

/-- Witness for C16: a binding whose oneof is unset (tag 0) on an object holding
`p1`: the non-strict call throws and the object is as before. -/
theorem C16_malformed_bindings_fatal_witness :
    (TKqpPhyParamBinding.mk "x" (.Other 0)).IsMalformed = true ∧
    ∃ e, ((TQueryData.init idBridge TTxAllocatorState.init).AddUVParam "p1" TType.Ui64
        (TUnboxedValue.Ui64 42)).2.MaterializeParamValue ⟨0, 0, 0, 0, 0, 0, ⟨0, 0, 0, 0⟩⟩ false
        (TKqpPhyParamBinding.mk "x" (.Other 0))
      = (.error e, ((TQueryData.init idBridge TTxAllocatorState.init).AddUVParam "p1" TType.Ui64
        (TUnboxedValue.Ui64 42)).2) :=
  ⟨rfl, (C16_malformed_bindings_fatal
    ((TQueryData.init idBridge TTxAllocatorState.init).AddUVParam "p1" TType.Ui64
      (TUnboxedValue.Ui64 42)).2 ⟨0, 0, 0, 0, 0, 0, ⟨0, 0, 0, 0⟩⟩ false
    (TKqpPhyParamBinding.mk "x" (.Other 0)) rfl).imp (fun _ he => he.1)⟩

/-! ## C17: resolving a binding again -/

/-- C17: invoking `MaterializeParamValue` a second time right after a first
invocation with the same binding and the same strict flag (in particular
non-strict) gives the same outcome as the first and leaves the whole object,
the parameter map, the serialized cache and the internal-value cache included,
exactly as the first invocation left it, whatever the providers return at the
second invocation; so for an internal binding the pair stored under the name by
the first invocation is not replaced. -/
theorem C17_reresolution_idempotent {B : TProtoBridge} (s : TQueryData B)
    (env1 env2 : TProviders) (ensure : Bool) (paramBinding : TKqpPhyParamBinding) :
    (s.MaterializeParamValue env1 ensure paramBinding).2.MaterializeParamValue env2 ensure
        paramBinding
      = ((s.MaterializeParamValue env1 ensure paramBinding).1,
          (s.MaterializeParamValue env1 ensure paramBinding).2) ∧
    (∀ name, ((s.MaterializeParamValue env1 ensure paramBinding).2.MaterializeParamValue env2
        ensure paramBinding).2.UnboxedData.find name
      = (s.MaterializeParamValue env1 ensure paramBinding).2.UnboxedData.find name) := by
  have main : (s.MaterializeParamValue env1 ensure paramBinding).2.MaterializeParamValue env2
      ensure paramBinding
      = ((s.MaterializeParamValue env1 ensure paramBinding).1,
          (s.MaterializeParamValue env1 ensure paramBinding).2) := by
    obtain ⟨name, tc⟩ := paramBinding
    cases tc with
    | kExternalBinding =>
      cases h : s.UnboxedData.find name with
      | none =>
        rw [TQueryData.MaterializeParamValue_external_absent s env1 ensure name h]
        exact TQueryData.MaterializeParamValue_external_absent s env2 ensure name h
      | some tv =>
        rw [TQueryData.MaterializeParamValue_external_present s env1 ensure name tv h]
        exact TQueryData.MaterializeParamValue_external_present s env2 ensure name tv h
    | kTxResultBinding txIndex resultIndex =>
      cases h : s.GetTxResult txIndex resultIndex with
      | none =>
        have hh : s.HasResult txIndex resultIndex = false := by
          cases hb : s.HasResult txIndex resultIndex with
          | false => rfl
          | true =>
            obtain ⟨tv, htv⟩ := (TQueryData.HasResult_iff_GetTxResult s txIndex resultIndex).mp hb
            rw [h] at htv
            exact Option.noConfusion htv
        rw [TQueryData.MaterializeParamValue_txResult_absent s env1 ensure name txIndex
          resultIndex hh]
        exact TQueryData.MaterializeParamValue_txResult_absent s env2 ensure name txIndex
          resultIndex hh
      | some tv =>
        rw [TQueryData.MaterializeParamValue_txResult_present s env1 ensure name txIndex
          resultIndex tv h]
        have h2 : (s.AddUVParam name tv.1 tv.2).2.GetTxResult txIndex resultIndex = some tv := h
        rw [TQueryData.MaterializeParamValue_txResult_present _ env2 ensure name txIndex
          resultIndex tv h2]
        obtain ⟨w, hw⟩ := TQueryData.AddUVParam_has s name tv.1 tv.2
        rw [TQueryData.AddUVParam_present _ name tv.1 tv.2 w hw]
    | kInternalBinding internalType =>
      have hstable := TTxAllocatorState.GetInternalBindingValue_stable s.AllocState env1
        internalType _ (CacheKept.refl _) env2
      cases h : (s.AllocState.GetInternalBindingValue env1 internalType).1 with
      | error e =>
        rw [TQueryData.MaterializeParamValue_internal_error s env1 ensure name internalType e h]
        rw [h] at hstable
        have h2 : (({ s with AllocState :=
              (s.AllocState.GetInternalBindingValue env1 internalType).2 }
            : TQueryData B).AllocState.GetInternalBindingValue env2 internalType).1
            = .error e := by
          show ((s.AllocState.GetInternalBindingValue env1 internalType).2.GetInternalBindingValue
            env2 internalType).1 = .error e
          rw [hstable]
        rw [TQueryData.MaterializeParamValue_internal_error _ env2 ensure name internalType e h2]
        show (_, ({ s with AllocState :=
          ((s.AllocState.GetInternalBindingValue env1 internalType).2.GetInternalBindingValue
            env2 internalType).2 } : TQueryData B)) = _
        rw [hstable]
      | ok tv =>
        rw [TQueryData.MaterializeParamValue_internal_ok s env1 ensure name internalType tv h]
        rw [h] at hstable
        have h2 : ((({ s with AllocState :=
              (s.AllocState.GetInternalBindingValue env1 internalType).2 }
            : TQueryData B).AddUVParam name tv.1 tv.2).2.AllocState.GetInternalBindingValue
              env2 internalType).1 = .ok tv := by
          show ((s.AllocState.GetInternalBindingValue env1 internalType).2.GetInternalBindingValue
            env2 internalType).1 = .ok tv
          rw [hstable]
        rw [TQueryData.MaterializeParamValue_internal_ok _ env2 ensure name internalType tv h2]
        obtain ⟨w, hw⟩ := TQueryData.AddUVParam_has
          ({ s with AllocState := (s.AllocState.GetInternalBindingValue env1 internalType).2 }
            : TQueryData B) name tv.1 tv.2
        have hst2 : ((({ s with AllocState :=
              (s.AllocState.GetInternalBindingValue env1 internalType).2 }
            : TQueryData B).AddUVParam name tv.1 tv.2).2.AllocState.GetInternalBindingValue
              env2 internalType).2
            = (s.AllocState.GetInternalBindingValue env1 internalType).2 := by
          show ((s.AllocState.GetInternalBindingValue env1 internalType).2.GetInternalBindingValue
            env2 internalType).2 = _
          rw [hstable]
        rw [hst2]
        have hsame : ({ (({ s with AllocState :=
              (s.AllocState.GetInternalBindingValue env1 internalType).2 }
            : TQueryData B).AddUVParam name tv.1 tv.2).2 with
            AllocState := (s.AllocState.GetInternalBindingValue env1 internalType).2 }
            : TQueryData B)
            = (({ s with AllocState :=
              (s.AllocState.GetInternalBindingValue env1 internalType).2 }
            : TQueryData B).AddUVParam name tv.1 tv.2).2 := rfl
        rw [hsame, TQueryData.AddUVParam_present _ name tv.1 tv.2 w hw]
    | Other tag => rfl
  refine ⟨main, fun name => ?_⟩
  rw [main]

/-! ## C18: adding from a wire value -/

/-- C18: `AddTypedValueParam` and `AddMkqlParam` return the same boolean and leave
the same object as `AddUVParam` called with the imported pair: false and no
change when the name is already present, true and the imported pair stored
under the name when it is absent. -/
theorem C18_add_from_wire_value {B : TProtoBridge} (s : TQueryData B) (name : String)
    (ptype : B.YdbType) (pvalue : B.YdbValue) (t : B.MkqlType) (v : B.MkqlValue) :
    s.AddTypedValueParam name ptype pvalue
      = s.AddUVParam name (B.ImportYdbValueFromProto ptype pvalue).1
          (B.ImportYdbValueFromProto ptype pvalue).2 ∧
    s.AddMkqlParam name t v
      = s.AddUVParam name (B.ImportMkqlValueFromProto t v).1 (B.ImportMkqlValueFromProto t v).2 ∧
    (∀ old, s.UnboxedData.find name = some old →
      s.AddTypedValueParam name ptype pvalue = (false, s) ∧
      s.AddMkqlParam name t v = (false, s)) ∧
    (s.UnboxedData.find name = none →
      (s.AddTypedValueParam name ptype pvalue).1 = true ∧
      (s.AddTypedValueParam name ptype pvalue).2.UnboxedData.find name
        = some (B.ImportYdbValueFromProto ptype pvalue) ∧
      (s.AddMkqlParam name t v).1 = true ∧
      (s.AddMkqlParam name t v).2.UnboxedData.find name
        = some (B.ImportMkqlValueFromProto t v)) := by
  refine ⟨rfl, rfl, ?_, ?_⟩
  · intro old hold
    exact ⟨TQueryData.AddUVParam_present s name _ _ old hold,
      TQueryData.AddUVParam_present s name _ _ old hold⟩
  · intro habsent
    refine ⟨?_, ?_, ?_, ?_⟩
    · show (s.AddUVParam name _ _).1 = true
      rw [TQueryData.AddUVParam_absent s name _ _ habsent]
    · exact TNameMap.find_emplace_same s.UnboxedData name _ habsent
    · show (s.AddUVParam name _ _).1 = true
      rw [TQueryData.AddUVParam_absent s name _ _ habsent]
    · exact TNameMap.find_emplace_same s.UnboxedData name _ habsent

/-- Witness for C18: on an object holding `p1` as (Ui64, 42), `AddMkqlParam` of
`p1` returns false and changes nothing, and `AddTypedValueParam` of the absent
`p2` returns true and stores the imported pair. -/
theorem C18_add_from_wire_value_witness :
    ((TQueryData.init idBridge TTxAllocatorState.init).AddUVParam "p1" TType.Ui64
      (TUnboxedValue.Ui64 42)).2.AddMkqlParam "p1" TType.Ui32 (TUnboxedValue.Ui32 1)
      = (false, ((TQueryData.init idBridge TTxAllocatorState.init).AddUVParam "p1" TType.Ui64
          (TUnboxedValue.Ui64 42)).2) ∧
    (((TQueryData.init idBridge TTxAllocatorState.init).AddUVParam "p1" TType.Ui64
      (TUnboxedValue.Ui64 42)).2.AddTypedValueParam "p2" TType.Ui32
        (TUnboxedValue.Ui32 1)).2.UnboxedData.find "p2"
      = some (TType.Ui32, TUnboxedValue.Ui32 1) :=
  ⟨((C18_add_from_wire_value ((TQueryData.init idBridge TTxAllocatorState.init).AddUVParam "p1"
      TType.Ui64 (TUnboxedValue.Ui64 42)).2 "p1" TType.Ui32 (TUnboxedValue.Ui32 1)
      TType.Ui32 (TUnboxedValue.Ui32 1)).2.2.1 (TType.Ui64, TUnboxedValue.Ui64 42) rfl).2,
    ((C18_add_from_wire_value ((TQueryData.init idBridge TTxAllocatorState.init).AddUVParam "p1"
      TType.Ui64 (TUnboxedValue.Ui64 42)).2 "p2" TType.Ui32 (TUnboxedValue.Ui32 1)
      TType.Ui32 (TUnboxedValue.Ui32 1)).2.2.2 rfl).2.1⟩

/-! ## Bind depth -/

theorem bindDepth_append (t1 t2 : List TBindEvent) :
    ∀ d, bindDepth d (t1 ++ t2) = bindDepth (bindDepth d t1) t2 := by
  induction t1 with
  | nil => intro d; rfl
  | cons ev rest ih =>
    intro d
    cases ev with
    | Acquire => exact ih (d + 1)
    | Release => exact ih (d - 1)

theorem maxBindDepth_append (t1 t2 : List TBindEvent) :
    ∀ d, maxBindDepth d (t1 ++ t2)
      = max (maxBindDepth d t1) (maxBindDepth (bindDepth d t1) t2) := by
  induction t1 with
  | nil =>
    intro d
    have hge : ∀ (t : List TBindEvent) (e : Nat), e ≤ maxBindDepth e t := by
      intro t
      cases t with
      | nil => intro e; exact Nat.le_refl e
      | cons ev rest =>
        intro e
        cases ev <;> exact Nat.le_max_left _ _
    show maxBindDepth d t2 = max d (maxBindDepth d t2)
    exact (Nat.max_eq_right (hge t2 d)).symm
  | cons ev rest ih =>
    intro d
    cases ev with
    | Acquire =>
      show max d (maxBindDepth (d + 1) (rest ++ t2))
        = max (max d (maxBindDepth (d + 1) rest)) (maxBindDepth (bindDepth (d + 1) rest) t2)
      rw [ih (d + 1), Nat.max_assoc]
    | Release =>
      show max d (maxBindDepth (d - 1) (rest ++ t2))
        = max (max d (maxBindDepth (d - 1) rest)) (maxBindDepth (bindDepth (d - 1) rest) t2)
      rw [ih (d - 1), Nat.max_assoc]

namespace TQueryData

variable {B : TProtoBridge}

theorem GetParameterMiniKqlValueBinds_depth (s : TQueryData B) (name : String) :
    bindDepth 0 (s.GetParameterMiniKqlValueBinds name) = 0 ∧
    maxBindDepth 0 (s.GetParameterMiniKqlValueBinds name) ≤ 1 := by
  unfold GetParameterMiniKqlValueBinds
  cases s.UnboxedData.find name with
  | none => exact ⟨rfl, by simp [maxBindDepth, AddUVParamBinds]⟩
  | some tv =>
    cases s.Params.find name with
    | none => exact ⟨rfl, by simp [maxBindDepth, AddUVParamBinds]⟩
    | some p => exact ⟨rfl, by simp [maxBindDepth, AddUVParamBinds]⟩

theorem GetParamsLoopBinds_depth (names : List String) :
    ∀ s : TQueryData B,
      bindDepth 0 (s.GetParamsLoopBinds names) = 0 ∧
      maxBindDepth 0 (s.GetParamsLoopBinds names) ≤ 1 := by
  induction names with
  | nil => intro s; exact ⟨rfl, by simp [maxBindDepth, AddUVParamBinds]⟩
  | cons name rest ih =>
    intro s
    obtain ⟨h1, h2⟩ := GetParameterMiniKqlValueBinds_depth s name
    obtain ⟨r, hr⟩ := GetParameterMiniKqlValue_ok s name
    have hpair : s.GetParameterMiniKqlValue name
        = (.ok r, (s.GetParameterMiniKqlValue name).2) := by
      rw [← hr]
    have hstep : s.GetParamsLoopBinds (name :: rest)
        = s.GetParameterMiniKqlValueBinds name
          ++ (s.GetParameterMiniKqlValue name).2.GetParamsLoopBinds rest := by
      simp only [GetParamsLoopBinds]
      rw [hpair]
    obtain ⟨i1, i2⟩ := ih (s.GetParameterMiniKqlValue name).2
    rw [hstep, bindDepth_append, maxBindDepth_append, h1]
    exact ⟨i1, Nat.max_le.mpr ⟨h2, i2⟩⟩

theorem MaterializeParamValueBinds_depth (s : TQueryData B) (env : TProviders)
    (paramBinding : TKqpPhyParamBinding) :
    bindDepth 0 (s.MaterializeParamValueBinds env paramBinding) = 0 ∧
    maxBindDepth 0 (s.MaterializeParamValueBinds env paramBinding) ≤ 2 := by
  obtain ⟨name, tc⟩ := paramBinding
  cases tc with
  | kExternalBinding => exact ⟨rfl, by simp [maxBindDepth, AddUVParamBinds]⟩
  | kTxResultBinding txIndex resultIndex =>
    simp only [MaterializeParamValueBinds]
    cases s.HasResult txIndex resultIndex with
    | false => exact ⟨rfl, by simp [maxBindDepth, AddUVParamBinds]⟩
    | true =>
      cases s.GetTxResult txIndex resultIndex with
      | none => exact ⟨rfl, by simp [maxBindDepth, AddUVParamBinds]⟩
      | some tv => exact ⟨rfl, by simp [maxBindDepth, AddUVParamBinds]⟩
  | kInternalBinding internalType =>
    simp only [MaterializeParamValueBinds]
    cases h : (s.GetInternalBindingValue env internalType) with
    | mk r s1 =>
      cases r with
      | error e => exact ⟨rfl, by simp [maxBindDepth, AddUVParamBinds]⟩
      | ok tv => exact ⟨rfl, by simp [maxBindDepth, AddUVParamBinds]⟩
  | Other tag => exact ⟨rfl, by simp [maxBindDepth, AddUVParamBinds]⟩

end TQueryData

/-! ## C19: nesting of arena binds -/

/-- C19, counterexample: `AddTypedValueParam` of `p1` on a new object, started
with the arena unbound, succeeds and reaches bind depth 2: its own `guard` is
held while `AddUVParam` takes the arena again; the same holds for the
resolution of an internal `PARAM_NOW` binding. -/
theorem C19_nested_bind_counterexample :
    ((TQueryData.init idBridge TTxAllocatorState.init).AddTypedValueParam "p1" TType.Ui64
      (TUnboxedValue.Ui64 42)).1 = true ∧
    maxBindDepth 0 TQueryData.AddTypedValueParamBinds = 2 ∧
    ¬ (maxBindDepth 0 TQueryData.AddTypedValueParamBinds ≤ 1) ∧
    maxBindDepth 0 ((TQueryData.init idBridge TTxAllocatorState.init).MaterializeParamValueBinds
      ⟨0, 0, 0, 0, 0, 0, ⟨0, 0, 0, 0⟩⟩
      { Name := "now", TypeCase := .kInternalBinding .PARAM_NOW }) = 2 :=
  ⟨rfl, by decide, by decide, by decide⟩

/-- C19, amended: started with the arena unbound, every operation ends with the
arena unbound again, also when it throws, and the bind depth never exceeds two:
`AddUVParam`, `GetParameterMiniKqlValue`, `GetParams` and `Clear` hold at most
one bind, `AddTypedValueParam` and `AddMkqlParam` reach depth two through the
call of `AddUVParam` under their own guard, and `MaterializeParamValue` stays
within two (none for an external binding). -/
theorem C19_bind_depth_amended {B : TProtoBridge} (s : TQueryData B) (env : TProviders)
    (name : String) (paramBinding : TKqpPhyParamBinding) :
    (bindDepth 0 TQueryData.AddUVParamBinds = 0 ∧
      maxBindDepth 0 TQueryData.AddUVParamBinds = 1) ∧
    (bindDepth 0 TQueryData.AddTypedValueParamBinds = 0 ∧
      maxBindDepth 0 TQueryData.AddTypedValueParamBinds = 2) ∧
    (bindDepth 0 TQueryData.AddMkqlParamBinds = 0 ∧
      maxBindDepth 0 TQueryData.AddMkqlParamBinds = 2) ∧
    (bindDepth 0 (s.GetParameterMiniKqlValueBinds name) = 0 ∧
      maxBindDepth 0 (s.GetParameterMiniKqlValueBinds name) ≤ 1) ∧
    (bindDepth 0 s.GetParamsBinds = 0 ∧ maxBindDepth 0 s.GetParamsBinds ≤ 1) ∧
    (bindDepth 0 (s.MaterializeParamValueBinds env paramBinding) = 0 ∧
      maxBindDepth 0 (s.MaterializeParamValueBinds env paramBinding) ≤ 2) ∧
    (paramBinding.TypeCase = .kExternalBinding →
      maxBindDepth 0 (s.MaterializeParamValueBinds env paramBinding) = 0) ∧
    (bindDepth 0 TQueryData.ClearBinds = 0 ∧ maxBindDepth 0 TQueryData.ClearBinds = 1) := by
  refine ⟨⟨rfl, by decide⟩, ⟨rfl, by decide⟩, ⟨rfl, by decide⟩,
    TQueryData.GetParameterMiniKqlValueBinds_depth s name,
    TQueryData.GetParamsLoopBinds_depth _ s,
    TQueryData.MaterializeParamValueBinds_depth s env paramBinding, ?_, ⟨rfl, by decide⟩⟩
  intro hext
  obtain ⟨n, tc⟩ := paramBinding
  cases hext
  rfl

/-- Witness for the amended C19: for an external binding `MaterializeParamValue`
takes no bind at all. -/
theorem C19_bind_depth_amended_witness :
    maxBindDepth 0 ((TQueryData.init idBridge TTxAllocatorState.init).MaterializeParamValueBinds
      ⟨0, 0, 0, 0, 0, 0, ⟨0, 0, 0, 0⟩⟩ { Name := "p", TypeCase := .kExternalBinding }) = 0 :=
  (C19_bind_depth_amended (TQueryData.init idBridge TTxAllocatorState.init)
    ⟨0, 0, 0, 0, 0, 0, ⟨0, 0, 0, 0⟩⟩ "p" { Name := "p", TypeCase := .kExternalBinding }).2.2.2.2.2.2.1
    rfl

/-! ## Strict and non-strict mode -/

theorem TTxAllocatorState.GetInternalBindingValue_error_iff (st : TTxAllocatorState)
    (env : TProviders) (kind : EInternalBindingType) :
    (∃ e, (st.GetInternalBindingValue env kind).1 = .error e) ↔
      (kind.IsSupported = false ∨
        (kind = .PARAM_CURRENT_DATETIME ∧ MaxUi32 < ui64 (st.GetCachedDatetime env).1)) := by
  cases kind with
  | PARAM_NOW => simp [TTxAllocatorState.GetInternalBindingValue, EInternalBindingType.IsSupported]
  | PARAM_CURRENT_DATE =>
    rw [TTxAllocatorState.GetInternalBindingValue_date]
    simp [EInternalBindingType.IsSupported]
  | PARAM_CURRENT_DATETIME =>
    by_cases h : ui64 (st.GetCachedDatetime env).1 ≤ MaxUi32
    · simp [TTxAllocatorState.GetInternalBindingValue, EInternalBindingType.IsSupported, h]
    · simp [TTxAllocatorState.GetInternalBindingValue, EInternalBindingType.IsSupported, h,
        Nat.lt_of_not_le h]
  | PARAM_CURRENT_TIMESTAMP =>
    simp [TTxAllocatorState.GetInternalBindingValue, EInternalBindingType.IsSupported]
  | PARAM_RANDOM_NUMBER =>
    simp [TTxAllocatorState.GetInternalBindingValue, EInternalBindingType.IsSupported]
  | PARAM_RANDOM =>
    simp [TTxAllocatorState.GetInternalBindingValue, EInternalBindingType.IsSupported]
  | PARAM_RANDOM_UUID =>
    simp [TTxAllocatorState.GetInternalBindingValue, EInternalBindingType.IsSupported]
  | Other tag =>
    simp [TTxAllocatorState.GetInternalBindingValue, EInternalBindingType.IsSupported]

/-- The three ways the two modes of `MaterializeParamValue` relate in a state:
both return true with the same object; or the strict one throws where the
other returns false, the object untouched; or both throw the same exception,
which happens exactly for a malformed binding and for a datetime above the
32-bit range. -/
theorem TQueryData.MaterializeParamValue_modes {B : TProtoBridge} (s : TQueryData B)
    (env : TProviders) (paramBinding : TKqpPhyParamBinding) :
    ((∃ t, s.MaterializeParamValue env true paramBinding = (.ok true, t) ∧
        s.MaterializeParamValue env false paramBinding = (.ok true, t)) ∧
      ¬ (paramBinding.IsMalformed = true ∨
        (paramBinding.TypeCase = .kInternalBinding .PARAM_CURRENT_DATETIME ∧
          MaxUi32 < ui64 (s.AllocState.GetCachedDatetime env).1))) ∨
    ((∃ e, s.MaterializeParamValue env true paramBinding = (.error e, s) ∧
        s.MaterializeParamValue env false paramBinding = (.ok false, s)) ∧
      ¬ (paramBinding.IsMalformed = true ∨
        (paramBinding.TypeCase = .kInternalBinding .PARAM_CURRENT_DATETIME ∧
          MaxUi32 < ui64 (s.AllocState.GetCachedDatetime env).1))) ∨
    ((∃ e t, s.MaterializeParamValue env true paramBinding = (.error e, t) ∧
        s.MaterializeParamValue env false paramBinding = (.error e, t)) ∧
      (paramBinding.IsMalformed = true ∨
        (paramBinding.TypeCase = .kInternalBinding .PARAM_CURRENT_DATETIME ∧
          MaxUi32 < ui64 (s.AllocState.GetCachedDatetime env).1))) := by
  obtain ⟨name, tc⟩ := paramBinding
  cases tc with
  | kExternalBinding =>
    cases h : s.UnboxedData.find name with
    | none =>
      refine Or.inr (Or.inl ⟨⟨.yexception ("Parameter not found: " ++ name), ?_, ?_⟩,
        by simp [TKqpPhyParamBinding.IsMalformed]⟩)
      · rw [MaterializeParamValue_external_absent s env true name h]; rfl
      · rw [MaterializeParamValue_external_absent s env false name h]; rfl
    | some tv =>
      refine Or.inl ⟨⟨s, ?_, ?_⟩, by simp [TKqpPhyParamBinding.IsMalformed]⟩
      · exact MaterializeParamValue_external_present s env true name tv h
      · exact MaterializeParamValue_external_present s env false name tv h
  | kTxResultBinding txIndex resultIndex =>
    cases h : s.GetTxResult txIndex resultIndex with
    | none =>
      have hh : s.HasResult txIndex resultIndex = false := by
        cases hb : s.HasResult txIndex resultIndex with
        | false => rfl
        | true =>
          obtain ⟨tv, htv⟩ := (HasResult_iff_GetTxResult s txIndex resultIndex).mp hb
          rw [h] at htv
          exact Option.noConfusion htv
      refine Or.inr (Or.inl ⟨⟨.TYqlPanic "HasResult(txIndex, resultIndex)", ?_, ?_⟩,
        by simp [TKqpPhyParamBinding.IsMalformed]⟩)
      · rw [MaterializeParamValue_txResult_absent s env true name txIndex resultIndex hh]; rfl
      · rw [MaterializeParamValue_txResult_absent s env false name txIndex resultIndex hh]; rfl
    | some tv =>
      exact Or.inl ⟨⟨_,
        MaterializeParamValue_txResult_present s env true name txIndex resultIndex tv h,
        MaterializeParamValue_txResult_present s env false name txIndex resultIndex tv h⟩,
        by simp [TKqpPhyParamBinding.IsMalformed]⟩
  | kInternalBinding internalType =>
    have hiff := TTxAllocatorState.GetInternalBindingValue_error_iff s.AllocState env internalType
    have hmal : (TKqpPhyParamBinding.mk name (.kInternalBinding internalType)).IsMalformed = true
        ↔ internalType.IsSupported = false := by
      cases internalType <;>
        simp [TKqpPhyParamBinding.IsMalformed, EInternalBindingType.IsSupported]
    have hP : ((TKqpPhyParamBinding.mk name (.kInternalBinding internalType)).IsMalformed = true ∨
        ((TKqpPhyParamBinding.mk name (.kInternalBinding internalType)).TypeCase
            = .kInternalBinding .PARAM_CURRENT_DATETIME ∧
          MaxUi32 < ui64 (s.AllocState.GetCachedDatetime env).1)) ↔
        ∃ e, (s.AllocState.GetInternalBindingValue env internalType).1 = .error e := by
      rw [hiff, hmal]
      simp
    cases h : (s.AllocState.GetInternalBindingValue env internalType).1 with
    | error e =>
      exact Or.inr (Or.inr ⟨⟨e, _,
        MaterializeParamValue_internal_error s env true name internalType e h,
        MaterializeParamValue_internal_error s env false name internalType e h⟩,
        hP.mpr ⟨e, h⟩⟩)
    | ok tv =>
      refine Or.inl ⟨⟨_,
        MaterializeParamValue_internal_ok s env true name internalType tv h,
        MaterializeParamValue_internal_ok s env false name internalType tv h⟩, ?_⟩
      intro hp
      obtain ⟨e, he⟩ := hP.mp hp
      rw [h] at he
      cases he
  | Other tag =>
    exact Or.inr (Or.inr ⟨⟨_, s, rfl, rfl⟩, Or.inl rfl⟩)

/-! ## C20: what strict mode changes -/

/-- C20, counterexample: on a new object with the datetime reading 2^32, the
strict resolution of the internal `PARAM_CURRENT_DATETIME` binding `dt` throws,
although the binding is not malformed and the non-strict resolution does not
return false: it throws the same exception. -/
theorem C20_strict_mode_counterexample :
    ((TQueryData.init idBridge TTxAllocatorState.init).MaterializeParamValue
        ⟨0, 0, 4294967296, 0, 0, 0, ⟨0, 0, 0, 0⟩⟩ true
        { Name := "dt", TypeCase := .kInternalBinding .PARAM_CURRENT_DATETIME }).1
      = .error (.TYqlPanic "datetime <= Max<ui32>()") ∧
    ((TQueryData.init idBridge TTxAllocatorState.init).MaterializeParamValue
        ⟨0, 0, 4294967296, 0, 0, 0, ⟨0, 0, 0, 0⟩⟩ false
        { Name := "dt", TypeCase := .kInternalBinding .PARAM_CURRENT_DATETIME }).1
      = .error (.TYqlPanic "datetime <= Max<ui32>()") ∧
    ((TQueryData.init idBridge TTxAllocatorState.init).MaterializeParamValue
        ⟨0, 0, 4294967296, 0, 0, 0, ⟨0, 0, 0, 0⟩⟩ false
        { Name := "dt", TypeCase := .kInternalBinding .PARAM_CURRENT_DATETIME }).1
      ≠ .ok false ∧
    (TKqpPhyParamBinding.mk "dt" (.kInternalBinding .PARAM_CURRENT_DATETIME)).IsMalformed
      = false :=
  ⟨rfl, rfl, fun h => Except.noConfusion h, rfl⟩

/-- C20, amended: strict `MaterializeParamValue` never returns false; whenever it
returns true the non-strict call from the same state returns true and leaves
the same object; it throws exactly when the non-strict call returns false, or
the binding is malformed, or the binding is an internal
`PARAM_CURRENT_DATETIME` whose datetime is above 2^32-1; in the last two cases
the non-strict call throws the same exception and leaves the same object. -/
theorem C20_strict_mode_amended {B : TProtoBridge} (s : TQueryData B) (env : TProviders)
    (paramBinding : TKqpPhyParamBinding) :
    (s.MaterializeParamValue env true paramBinding).1 ≠ .ok false ∧
    ((s.MaterializeParamValue env true paramBinding).1 = .ok true →
      s.MaterializeParamValue env false paramBinding
        = s.MaterializeParamValue env true paramBinding) ∧
    ((∃ e, (s.MaterializeParamValue env true paramBinding).1 = .error e) ↔
      ((s.MaterializeParamValue env false paramBinding).1 = .ok false ∨
        paramBinding.IsMalformed = true ∨
        (paramBinding.TypeCase = .kInternalBinding .PARAM_CURRENT_DATETIME ∧
          MaxUi32 < ui64 (s.AllocState.GetCachedDatetime env).1))) ∧
    ((paramBinding.IsMalformed = true ∨
        (paramBinding.TypeCase = .kInternalBinding .PARAM_CURRENT_DATETIME ∧
          MaxUi32 < ui64 (s.AllocState.GetCachedDatetime env).1)) →
      (∃ e, (s.MaterializeParamValue env false paramBinding).1 = .error e) ∧
      s.MaterializeParamValue env true paramBinding
        = s.MaterializeParamValue env false paramBinding) := by
  rcases TQueryData.MaterializeParamValue_modes s env paramBinding with
    ⟨⟨t, h1, h2⟩, hn⟩ | ⟨⟨e, h1, h2⟩, hn⟩ | ⟨⟨e, t, h1, h2⟩, hp⟩
  · rw [h1, h2]
    refine ⟨(fun h => by cases h), fun _ => rfl, ⟨?_, ?_⟩, fun hp => absurd hp hn⟩
    · rintro ⟨e, he⟩
      cases he
    · rintro (h | h)
      · cases h
      · exact absurd h hn
  · rw [h1, h2]
    refine ⟨(fun h => by cases h), (fun h => by cases h), ⟨fun _ => Or.inl rfl, fun _ => ⟨e, rfl⟩⟩,
      fun hp => absurd hp hn⟩
  · rw [h1, h2]
    exact ⟨(fun h => by cases h), (fun h => by cases h),
      ⟨fun _ => Or.inr hp, fun _ => ⟨e, rfl⟩⟩, fun _ => ⟨⟨e, rfl⟩, rfl⟩⟩

/-- Witness for the amended C20: for the absent external parameter `missing` the
strict call throws where the non-strict call returns false. -/
theorem C20_strict_mode_amended_witness :
    ((TQueryData.init idBridge TTxAllocatorState.init).MaterializeParamValue
        ⟨0, 0, 0, 0, 0, 0, ⟨0, 0, 0, 0⟩⟩ false
        { Name := "missing", TypeCase := .kExternalBinding }).1 = .ok false ∧
    ∃ e, ((TQueryData.init idBridge TTxAllocatorState.init).MaterializeParamValue
        ⟨0, 0, 0, 0, 0, 0, ⟨0, 0, 0, 0⟩⟩ true
        { Name := "missing", TypeCase := .kExternalBinding }).1 = .error e :=
  ⟨rfl, (C20_strict_mode_amended (TQueryData.init idBridge TTxAllocatorState.init)
    ⟨0, 0, 0, 0, 0, 0, ⟨0, 0, 0, 0⟩⟩
    { Name := "missing", TypeCase := .kExternalBinding }).2.2.1.mpr (Or.inl rfl)⟩

end NKikimr.NKqp
